import Mathlib

/-!
Verification development for the generated TypeScript SDK HTTP layer of the
Intergalactic Bank API client (request construction, retry, pagination,
content-type dispatch and hook adaptation).  Every definition below is a
shallow embedding of the corresponding TypeScript source function; theorems
settle the specified behavioural claims against those embeddings.
-/

set_option autoImplicit false

/-- Exact rational numbers represented as an integer pair.  They model the
JavaScript numbers appearing in the SDK retry configuration and computations
(all claim-relevant values are small integers, which IEEE doubles represent
exactly).  The representation is unnormalised so that every operation is
kernel-computable. -/
structure JsNum where
  num : Int
  den : Int
  deriving DecidableEq, Repr

/-- Embeds an integer as a JavaScript number. -/
def JsNum.ofInt (n : Int) : JsNum := ⟨n, 1⟩

instance (n : Nat) : OfNat JsNum n := ⟨JsNum.ofInt (Int.ofNat n)⟩

/-- Multiplication of JavaScript numbers. -/
def JsNum.mul (a b : JsNum) : JsNum := ⟨a.num * b.num, a.den * b.den⟩

/-- Addition of JavaScript numbers. -/
def JsNum.add (a b : JsNum) : JsNum := ⟨a.num * b.den + b.num * a.den, a.den * b.den⟩

/-- Exponentiation by a natural number (models `Math.pow` on the claim-relevant
inputs). -/
def JsNum.pow (a : JsNum) : Nat → JsNum
  | 0 => JsNum.ofInt 1
  | n + 1 => (JsNum.pow a n).mul a

/-- Comparison (valid on the positive-denominator values produced by the
embedding). -/
def JsNum.le (a b : JsNum) : Bool := decide (a.num * b.den ≤ b.num * a.den)

/-- `Math.min` on JavaScript numbers. -/
def JsNum.min (a b : JsNum) : JsNum := if JsNum.le a b then a else b

/-- Strict positivity test (used for the `jitter > 0` check). -/
def JsNum.isPos (a : JsNum) : Bool := decide (0 < a.num * a.den)

/-- `Math.floor`, producing an integer. -/
def JsNum.floorInt (a : JsNum) : Int := Int.fdiv a.num a.den

mutual
/-- JavaScript runtime values, as far as the SDK observes them: `undefined`,
`null`, `NaN`, booleans, numbers, strings, `ArrayBuffer` contents, arrays and
plain objects (ordered field lists). -/
inductive Value where
  | undefined : Value
  | vnull : Value
  | vnan : Value
  | vbool : Bool → Value
  | vnum : JsNum → Value
  | vstr : String → Value
  | vbytes : String → Value
  | varr : ValueList → Value
  | vobj : ObjFields → Value

/-- A JavaScript array of values. -/
inductive ValueList where
  | nil : ValueList
  | cons : Value → ValueList → ValueList

/-- The ordered own-properties of a JavaScript object. -/
inductive ObjFields where
  | nil : ObjFields
  | cons : String → Value → ObjFields → ObjFields
end

/-- Looks up an object property, yielding `undefined` when absent (JavaScript
member-access semantics on plain objects). -/
def ObjFields.get : ObjFields → String → Value
  | .nil, _ => .undefined
  | .cons k v rest, key => if k = key then v else ObjFields.get rest key

/-- Array indexing, yielding `undefined` out of range. -/
def ValueList.getIdx : ValueList → Nat → Value
  | .nil, _ => .undefined
  | .cons v _, 0 => v
  | .cons _ rest, n + 1 => ValueList.getIdx rest n

/-- Length of an embedded array. -/
def ValueList.length : ValueList → Nat
  | .nil => 0
  | .cons _ rest => ValueList.length rest + 1

/-- Converts a Lean list of values into an embedded array. -/
def ValueList.ofList : List Value → ValueList
  | [] => .nil
  | v :: rest => .cons v (ValueList.ofList rest)

/-- Converts a Lean association list into embedded object fields. -/
def ObjFields.ofList : List (String × Value) → ObjFields
  | [] => .nil
  | (k, v) :: rest => .cons k v (ObjFields.ofList rest)

/-- Decimal rendering of a JavaScript number (claim-relevant values are
integers; a non-integral value is rendered as a fraction). -/
def JsNum.render (a : JsNum) : String :=
  if a.den = 1 then toString a.num
  else if a.den = -1 then toString (-a.num)
  else toString a.num ++ "/" ++ toString a.den

/-- Stringification of one array element inside `join`: `null` and `undefined`
become the empty string, everything else uses its ordinary rendering (passed
in already computed, keeping the recursion structural). -/
def jsElemString : Value → String → String
  | .vnull, _ => ""
  | .undefined, _ => ""
  | _, rendered => rendered

mutual
/-- JavaScript template-literal stringification, `String(v)`. -/
def jsToString : Value → String
  | .undefined => "undefined"
  | .vnull => "null"
  | .vnan => "NaN"
  | .vbool b => if b then "true" else "false"
  | .vnum q => JsNum.render q
  | .vstr s => s
  | .vbytes _ => "[object ArrayBuffer]"
  | .varr l => jsArrayDefaultJoin l
  | .vobj _ => "[object Object]"
termination_by structural v => v

/-- `Array.prototype.toString`, i.e. `join(",")`, where `null` and `undefined`
elements render as the empty string. -/
def jsArrayDefaultJoin : ValueList → String
  | .nil => ""
  | .cons v .nil => jsElemString v (jsToString v)
  | .cons v (.cons w rest) =>
      jsElemString v (jsToString v) ++ "," ++ jsArrayDefaultJoin (.cons w rest)
termination_by structural l => l
end

/-- JavaScript truthiness test, negated (`!v`). -/
def jsFalsy : Value → Bool
  | .undefined => true
  | .vnull => true
  | .vnan => true
  | .vbool b => !b
  | .vnum q => q.num == 0
  | .vstr s => s.isEmpty
  | .vbytes _ => false
  | .varr _ => false
  | .vobj _ => false

/-- Boolean prefix test on character lists (JavaScript `String.startsWith`). -/
def charsIsPrefix : List Char → List Char → Bool
  | [], _ => true
  | _ :: _, [] => false
  | c :: cs, d :: ds => c == d && charsIsPrefix cs ds

/-- Boolean substring test on character lists (JavaScript `String.includes`). -/
def charsContains (pat : List Char) : List Char → Bool
  | [] => pat.isEmpty
  | c :: rest => charsIsPrefix pat (c :: rest) || charsContains pat rest

/-- Replaces the first occurrence of `pat` in `s` by `repl` (JavaScript
`String.replace` with a string pattern). -/
def charsReplaceFirst : List Char → List Char → List Char → List Char
  | [], pat, repl => if pat.isEmpty then repl else []
  | c :: rest, pat, repl =>
    if charsIsPrefix pat (c :: rest) then repl ++ (c :: rest).drop pat.length
    else c :: charsReplaceFirst rest pat repl

/-- String-level wrapper for `charsReplaceFirst`. -/
def jsReplaceFirst (s pat repl : String) : String :=
  ⟨charsReplaceFirst s.toList pat.toList repl.toList⟩

/-- Lower-cases a string character-wise (JavaScript `toLowerCase` on the ASCII
content-type strings the SDK handles). -/
def jsToLower (s : String) : List Char := s.toList.map Char.toLower

/-- Whitespace recognised when coercing strings to numbers and when skipping
between JSON tokens: space, tab, line feed, carriage return. -/
def isJsWs (c : Char) : Bool := decide (c.toNat ∈ [32, 9, 10, 13])

/-- Numeric value of a digit string. -/
def digitsVal (l : List Char) : Int :=
  l.foldl (fun acc c => 10 * acc + (Int.ofNat c.toNat - 48)) 0

/-- Parses an unsigned decimal numeral (integer part, optional fraction),
requiring the whole input to be consumed. -/
def parseUnsignedNumeral (l : List Char) : Option JsNum :=
  let ip := l.takeWhile Char.isDigit
  let rest := l.dropWhile Char.isDigit
  match rest with
  | [] => if ip.isEmpty then none else some (JsNum.ofInt (digitsVal ip))
  | '.' :: rest2 =>
    let fp := rest2.takeWhile Char.isDigit
    let rest3 := rest2.dropWhile Char.isDigit
    if rest3.isEmpty && !(ip.isEmpty && fp.isEmpty) then
      some ⟨digitsVal ip * Int.ofNat (10 ^ fp.length) + digitsVal fp, Int.ofNat (10 ^ fp.length)⟩
    else none
  | _ => none

/-- JavaScript `Number(string)`: trimmed empty string is `0`, otherwise a
signed decimal numeral; anything else is `NaN` (`none`). -/
def jsStringToNumber (s : String) : Option JsNum :=
  let t := ((s.toList.dropWhile isJsWs).reverse.dropWhile isJsWs).reverse
  match t with
  | [] => some (JsNum.ofInt 0)
  | '-' :: rest => (parseUnsignedNumeral rest).map (fun q => ⟨-q.num, q.den⟩)
  | '+' :: rest => parseUnsignedNumeral rest
  | l => parseUnsignedNumeral l

/-- JavaScript `Number(v)` coercion; `none` models `NaN`. -/
def jsNumberOf : Value → Option JsNum
  | .vnum q => some q
  | .vnan => none
  | .vnull => some (JsNum.ofInt 0)
  | .undefined => none
  | .vbool b => some (JsNum.ofInt (if b then 1 else 0))
  | .vstr s => jsStringToNumber s
  | .vbytes _ => none
  | .varr l => jsStringToNumber (jsToString (.varr l))
  | .vobj _ => none

/-- Characters `encodeURIComponent` leaves unescaped. -/
def isUnreservedChar (c : Char) : Bool :=
  c.isAlphanum || c == '-' || c == '_' || c == '.' || c == '!' || c == '~' ||
    c == '*' || c == Char.ofNat 39 || c == '(' || c == ')'

/-- Uppercase hexadecimal digit. -/
def hexDigit (n : Nat) : Char :=
  "0123456789ABCDEF".toList.getD n '0'

/-- Percent-encoding of one byte. -/
def percentEncodeByte (b : Nat) : List Char :=
  ['%', hexDigit (b / 16), hexDigit (b % 16)]

/-- UTF-8 bytes of a character. -/
def utf8Bytes (c : Char) : List Nat :=
  let n := c.toNat
  if n < 128 then [n]
  else if n < 2048 then [192 + n / 64, 128 + n % 64]
  else if n < 65536 then [224 + n / 4096, 128 + (n / 64) % 64, 128 + n % 64]
  else [240 + n / 262144, 128 + (n / 4096) % 64, 128 + (n / 64) % 64, 128 + n % 64]

/-- JavaScript `encodeURIComponent`. -/
def encodeURIComponent (s : String) : String :=
  ⟨(s.toList.map (fun c =>
      if isUnreservedChar c then [c]
      else ((utf8Bytes c).map percentEncodeByte).flatten)).flatten⟩

/-- Parser state for the JSON reader: reading a value, the remaining items of
an array, or the remaining fields of an object. -/
inductive JsonParseMode where
  | value : JsonParseMode
  | items : List Value → JsonParseMode
  | fields : List (String × Value) → JsonParseMode

/-- Skips JSON whitespace. -/
def skipJsonWs (l : List Char) : List Char :=
  l.dropWhile isJsWs

/-- The two-character JSON escapes the reader accepts, as pairs of the escape
letter and the character it denotes. -/
def jsonEscapePairs : List (Char × Char) :=
  [('"', '"'), ('\\', '\\'), ('/', '/'), ('n', Char.ofNat 10), ('t', Char.ofNat 9),
   ('r', Char.ofNat 13), ('b', Char.ofNat 8), ('f', Char.ofNat 12)]

/-- Reads a JSON string body after the opening quote, handling the simple
escapes. -/
def parseJsonStringBody : List Char → Option (List Char × List Char)
  | [] => none
  | '"' :: rest => some ([], rest)
  | '\\' :: c :: rest =>
    match jsonEscapePairs.find? (fun pair => pair.1 == c), parseJsonStringBody rest with
    | some pair, some (cs, r) => some (pair.2 :: cs, r)
    | _, _ => none
  | c :: rest => (parseJsonStringBody rest).map (fun p => (c :: p.1, p.2))

/-- Reads an unsigned JSON number. -/
def parseJsonNumberBody (l : List Char) : Option (JsNum × List Char) :=
  let ip := l.takeWhile Char.isDigit
  let rest := l.dropWhile Char.isDigit
  if ip.isEmpty then none
  else
    match rest with
    | '.' :: rest2 =>
      let fp := rest2.takeWhile Char.isDigit
      let rest3 := rest2.dropWhile Char.isDigit
      if fp.isEmpty then none
      else some (⟨digitsVal ip * Int.ofNat (10 ^ fp.length) + digitsVal fp,
                  Int.ofNat (10 ^ fp.length)⟩, rest3)
    | _ => some (JsNum.ofInt (digitsVal ip), rest)

/-- Fuel-driven JSON reader (models the external `JSON.parse` capability the
SDK consumes; fuel keeps the recursion structural and kernel-computable). -/
def parseJsonF : Nat → JsonParseMode → List Char → Option (Value × List Char)
  | 0, _, _ => none
  | fuel + 1, .value, s =>
    let s1 := skipJsonWs s
    if charsIsPrefix "null".toList s1 then some (.vnull, s1.drop 4)
    else if charsIsPrefix "true".toList s1 then some (.vbool true, s1.drop 4)
    else if charsIsPrefix "false".toList s1 then some (.vbool false, s1.drop 5)
    else
      match s1 with
      | '"' :: r => (parseJsonStringBody r).map (fun p => (.vstr ⟨p.1⟩, p.2))
      | '[' :: r =>
        match skipJsonWs r with
        | ']' :: r2 => some (.varr .nil, r2)
        | r2 => parseJsonF fuel (.items []) r2
      | '{' :: r =>
        match skipJsonWs r with
        | '}' :: r2 => some (.vobj .nil, r2)
        | r2 => parseJsonF fuel (.fields []) r2
      | '-' :: r => (parseJsonNumberBody r).map (fun p => (.vnum ⟨-p.1.num, p.1.den⟩, p.2))
      | r => (parseJsonNumberBody r).map (fun p => (.vnum p.1, p.2))
  | fuel + 1, .items acc, s =>
    match parseJsonF fuel .value s with
    | none => none
    | some (v, r) =>
      match skipJsonWs r with
      | ',' :: r2 => parseJsonF fuel (.items (v :: acc)) r2
      | ']' :: r2 => some (.varr (ValueList.ofList (v :: acc).reverse), r2)
      | _ => none
  | fuel + 1, .fields acc, s =>
    match skipJsonWs s with
    | '"' :: r =>
      match parseJsonStringBody r with
      | none => none
      | some (kcs, r2) =>
        match skipJsonWs r2 with
        | ':' :: r3 =>
          match parseJsonF fuel .value r3 with
          | none => none
          | some (v, r4) =>
            match skipJsonWs r4 with
            | ',' :: r5 => parseJsonF fuel (.fields ((⟨kcs⟩, v) :: acc)) r5
            | '}' :: r5 => some (.vobj (ObjFields.ofList ((⟨kcs⟩, v) :: acc).reverse), r5)
            | _ => none
        | _ => none
    | _ => none

/-- `JSON.parse`, raising on malformed input. -/
def jsonParse (s : String) : Except String Value :=
  match parseJsonF (2 * s.toList.length + 8) .value s.toList with
  | some (v, rest) =>
    if (skipJsonWs rest).isEmpty then .ok v else .error "Unexpected token in JSON"
  | none => .error "Unexpected end of JSON input"

/-- OpenAPI parameter serialization styles (`base-serializer.ts`). -/
inductive SerializationStyle where
  | SIMPLE
  | LABEL
  | MATRIX
  | FORM
  | SPACE_DELIMITED
  | PIPE_DELIMITED
  | DEEP_OBJECT
  | NONE
  deriving DecidableEq, Repr

/-- A request parameter with its serialization metadata and pagination role
flags (`transport/types.ts`, interface `RequestParameter`). -/
structure RequestParameter where
  key : Option String
  value : Value
  explode : Bool
  encode : Bool
  style : SerializationStyle
  isLimit : Bool
  isOffset : Bool
  isCursor : Bool

/-- Renders `param.key` inside a template literal (`undefined` when absent). -/
def keyTemplate (k : Option String) : String :=
  match k with
  | some s => s
  | none => "undefined"

/-- Joins array elements with a separator, rendering `null`/`undefined`
elements as empty strings (JavaScript `Array.join`). -/
def jsArrayJoin (sep : String) : ValueList → String
  | .nil => ""
  | .cons v .nil => jsElemString v (jsToString v)
  | .cons v (.cons w rest) =>
      jsElemString v (jsToString v) ++ sep ++ jsArrayJoin sep (.cons w rest)

/-- Maps object fields to rendered `key`/`value` pairs
(`Object.entries(obj).map`). -/
def objEntriesRender : ObjFields → List (String × String)
  | .nil => []
  | .cons k v rest => (k, jsToString v) :: objEntriesRender rest

/-- Joins rendered strings with a separator. -/
def joinWith (sep : String) (l : List String) : String :=
  String.intercalate sep l

/-- `Serializer.serializePrimitive` from `base-serializer.ts`. -/
def Serializer.serializePrimitive (param : RequestParameter) : String :=
  if param.style = SerializationStyle.LABEL then
    "." ++ jsToString param.value
  else if param.style = SerializationStyle.MATRIX then
    ";" ++ keyTemplate param.key ++ "=" ++ jsToString param.value
  else if param.style = SerializationStyle.FORM then
    encodeURIComponent (param.key.getD "") ++ "=" ++ encodeURIComponent (jsToString param.value)
  else
    jsToString param.value

/-- `value.map((val) => toString val)` over an embedded array. -/
def valueListMapToString : ValueList → List String
  | .nil => []
  | .cons v rest => jsToString v :: valueListMapToString rest

/-- `Serializer.serializeArrayExploded` from `base-serializer.ts`. -/
def Serializer.serializeArrayExploded (value : ValueList) (param : RequestParameter) : String :=
  if param.style = SerializationStyle.SIMPLE then
    joinWith "," (valueListMapToString value)
  else if param.style = SerializationStyle.LABEL then
    joinWith "" ((valueListMapToString value).map (fun v => "." ++ v))
  else if param.style = SerializationStyle.MATRIX then
    joinWith "" ((valueListMapToString value).map (fun v => ";" ++ keyTemplate param.key ++ "=" ++ v))
  else if param.style = SerializationStyle.FORM ∨ param.style = SerializationStyle.SPACE_DELIMITED ∨
      param.style = SerializationStyle.PIPE_DELIMITED then
    joinWith "&" ((valueListMapToString value).map
      (fun v => encodeURIComponent (param.key.getD "") ++ "=" ++ encodeURIComponent v))
  else
    jsArrayJoin "," value

/-- `Serializer.serializeArray` from `base-serializer.ts`. -/
def Serializer.serializeArray (value : ValueList) (param : RequestParameter) : String :=
  if param.explode then
    Serializer.serializeArrayExploded value param
  else if param.style = SerializationStyle.SIMPLE then
    jsArrayJoin "," value
  else if param.style = SerializationStyle.LABEL then
    "." ++ jsArrayJoin "," value
  else if param.style = SerializationStyle.MATRIX then
    ";" ++ keyTemplate param.key ++ "=" ++ jsArrayJoin "," value
  else if param.style = SerializationStyle.FORM then
    encodeURIComponent (param.key.getD "") ++ "=" ++ encodeURIComponent (jsArrayJoin "," value)
  else if param.style = SerializationStyle.SPACE_DELIMITED then
    keyTemplate param.key ++ "=" ++ jsArrayJoin " " value
  else if param.style = SerializationStyle.PIPE_DELIMITED then
    keyTemplate param.key ++ "=" ++ jsArrayJoin "|" value
  else
    jsArrayJoin "," value

/-- `Serializer.serializeObject` from `base-serializer.ts`.  The source's
`if (param.explode)` block has no final `else`: an exploded parameter whose
style is outside SIMPLE/LABEL/MATRIX/FORM falls through to the second,
non-exploded chain (so explode with DEEP_OBJECT still renders
`key[entryKey]=value` pairs). -/
def Serializer.serializeObject (obj : ObjFields) (param : RequestParameter) : String :=
  let entries := objEntriesRender obj
  if param.explode = true ∧ param.style = SerializationStyle.SIMPLE then
    joinWith "," (entries.map (fun e => e.1 ++ "=" ++ e.2))
  else if param.explode = true ∧ param.style = SerializationStyle.LABEL then
    joinWith "" (entries.map (fun e => "." ++ e.1 ++ "=" ++ e.2))
  else if param.explode = true ∧ param.style = SerializationStyle.MATRIX then
    joinWith "" (entries.map (fun e => ";" ++ e.1 ++ "=" ++ e.2))
  else if param.explode = true ∧ param.style = SerializationStyle.FORM then
    joinWith "&" (entries.map (fun e => e.1 ++ "=" ++ e.2))
  else if param.style = SerializationStyle.SIMPLE then
    joinWith "," (entries.map (fun e => e.1 ++ "," ++ e.2))
  else if param.style = SerializationStyle.LABEL then
    "." ++ joinWith "," (entries.map (fun e => e.1 ++ "," ++ e.2))
  else if param.style = SerializationStyle.MATRIX then
    ";" ++ keyTemplate param.key ++ "=" ++ joinWith "," (entries.map (fun e => e.1 ++ "," ++ e.2))
  else if param.style = SerializationStyle.FORM then
    joinWith "&" (entries.map (fun e => e.1 ++ "=" ++ e.2))
  else if param.style = SerializationStyle.DEEP_OBJECT then
    joinWith "&" (entries.map (fun e => keyTemplate param.key ++ "[" ++ e.1 ++ "]=" ++ e.2))
  else
    joinWith "&" (entries.map (fun e => e.1 ++ "=" ++ e.2))

/-- `Serializer.serializeValue` from `base-serializer.ts`: arrays first, then
non-null objects, otherwise primitives. -/
def Serializer.serializeValue (param : RequestParameter) : String :=
  match param.value with
  | .varr l => Serializer.serializeArray l param
  | .vobj fields => Serializer.serializeObject fields param
  | .vbytes _ => Serializer.serializeObject ObjFields.nil param
  | _ => Serializer.serializePrimitive param

/-- Standard HTTP methods supported by the SDK (`types.ts`). -/
inductive HttpMethod where
  | CONNECT
  | DELETE
  | GET
  | HEAD
  | OPTIONS
  | PATCH
  | POST
  | PUT
  | TRACE
  deriving DecidableEq, Repr

/-- Retry configuration (`types.ts`, `RetryOptions`); every field optional. -/
structure RetryOptions where
  attempts : Option Nat := none
  delayMs : Option JsNum := none
  maxDelayMs : Option JsNum := none
  backoffFactor : Option JsNum := none
  jitterMs : Option JsNum := none
  statusCodesToRetry : Option (List Int) := none
  httpMethodsToRetry : Option (List HttpMethod) := none

/-- Validation configuration (`types.ts`, `ValidationOptions`). -/
structure ValidationOptions where
  responseValidation : Option Bool := none

/-- SDK configuration (`types.ts`, `SdkConfig`). -/
structure SdkConfig where
  baseUrl : Option String := none
  environment : Option String := none
  timeoutMs : Option JsNum := none
  apiKey : Option String := none
  apiKeyHeader : Option String := none
  retry : Option RetryOptions := none
  validation : Option ValidationOptions := none

/-- The SDK content-type enumeration (`types.ts`, `ContentType`). -/
inductive ContentType where
  | Json
  | Xml
  | Pdf
  | Image
  | File
  | Binary
  | FormUrlEncoded
  | Text
  | MultipartFormData
  | EventStream
  deriving DecidableEq, Repr

/-- A schema as the SDK consumes it: an external validation capability that
either returns the (parsed) value or raises a structured error. -/
def SchemaFn : Type := Value → Except String Value

/-- An expected-response definition (`transport/types.ts`,
`ResponseDefinition`); the schema is optional to model the `!!schema` check. -/
structure ResponseDefinition where
  schema : Option SchemaFn
  contentType : ContentType
  status : Int

/-- A typed-error definition (`transport/types.ts`, `ErrorDefinition`); the
error constructor is modelled by an opaque identifier. -/
structure ErrorDefinition where
  errorId : Nat
  contentType : ContentType
  status : Int

/-- Limit-offset pagination configuration (`transport/types.ts`,
`RequestPagination`). -/
structure RequestPagination where
  pageSize : Option JsNum
  pagePath : List String
  pageSchema : Option SchemaFn

/-- Cursor pagination configuration (`transport/types.ts`,
`RequestCursorPagination`). -/
structure RequestCursorPagination where
  pagePath : List String
  pageSchema : Option SchemaFn
  cursorPath : List String
  cursorSchema : Option SchemaFn

/-- The two pagination variants, discriminated in the source by the presence
of `cursorPath`. -/
inductive PaginationChoice where
  | offset : RequestPagination → PaginationChoice
  | cursor : RequestCursorPagination → PaginationChoice

/-- `isRequestCursorPagination` from `transport/types.ts`. -/
def isRequestCursorPagination : Option PaginationChoice → Bool
  | some (.cursor _) => true
  | _ => false

/-- An ordered parameter map (insertion-ordered, as a JavaScript `Map`). -/
abbrev PMap := List (String × RequestParameter)

/-- `Map.set`: updates the entry in place when the key exists, appends
otherwise. -/
def PMap.set (m : PMap) (k : String) (v : RequestParameter) : PMap :=
  if m.any (fun e => e.1 == k) then
    m.map (fun e => if e.1 == k then (k, v) else e)
  else m ++ [(k, v)]

/-- `Map.get`. -/
def PMap.get (m : PMap) (k : String) : Option RequestParameter :=
  (m.find? (fun e => e.1 == k)).map (fun e => e.2)

/-- `PathSerializer.serialize` from `query-serializer.ts`: folds over the path
arguments in map order, replacing the first occurrence of each parameter's
`{key}` token by its serialized value. -/
def PathSerializer.serialize (pathPattern : String) (pathArguments : PMap) : String :=
  pathArguments.foldl
    (fun serializedPath e =>
      jsReplaceFirst serializedPath ("\x7b" ++ keyTemplate e.2.key ++ "\x7d")
        (Serializer.serializeValue e.2))
    pathPattern

/-- `QuerySerializer.serialize` from `query-serializer.ts`: serializes every
parameter with a defined value, prefixing `?` when any are present. -/
def QuerySerializer.serialize (queryParams : PMap) : String :=
  let query := queryParams.foldl
    (fun acc e =>
      match e.2.value with
      | .undefined => acc
      | _ => acc ++ [Serializer.serializeValue e.2])
    []
  if query.isEmpty then "" else "?" ++ joinWith "&" query

/-- The construction parameters of a `Request`
(`transport/types.ts`, `CreateRequestParameters`).  The request-body schema is
kept as an opaque handle (no claim exercises request-body validation). -/
structure CreateRequestParameters where
  baseUrl : String
  method : HttpMethod
  body : Value := .undefined
  headers : PMap
  queryParams : PMap
  pathParams : PMap
  cookies : PMap
  path : String
  config : SdkConfig
  responses : List ResponseDefinition
  errors : List ErrorDefinition
  requestSchema : Nat
  requestContentType : ContentType
  pagination : Option PaginationChoice := none
  filename : Option String := none
  filenames : Option (List String) := none

/-- The `Request` object (`transport/request.ts`).  `pathPattern` is the
private raw template; `path` is the public field the constructor computes. -/
structure Request where
  baseUrl : String
  method : HttpMethod
  pathPattern : String
  path : String
  body : Value
  config : SdkConfig
  pathParams : PMap
  headers : PMap
  queryParams : PMap
  cookies : PMap
  responses : List ResponseDefinition
  errors : List ErrorDefinition
  requestSchema : Nat
  requestContentType : ContentType
  pagination : Option PaginationChoice
  filename : Option String
  filenames : Option (List String)

/-- The `Request` constructor.  The source assigns
`this.path = this.constructPath()` before `this.pathParams = params.pathParams`
is executed, so the path is serialized against the field initialiser
`new Map()` (the empty map). -/
def Request.new (params : CreateRequestParameters) : Request where
  baseUrl := params.baseUrl
  method := params.method
  pathPattern := params.path
  path := PathSerializer.serialize params.path []
  body := params.body
  config := params.config
  pathParams := params.pathParams
  headers := params.headers
  queryParams := params.queryParams
  cookies := params.cookies
  responses := params.responses
  errors := params.errors
  requestSchema := params.requestSchema
  requestContentType := params.requestContentType
  pagination := params.pagination
  filename := params.filename
  filenames := params.filenames

/-- A parameter as passed to the `add*Param` methods, whose serialization
fields may still be unset (the methods fill in the per-kind defaults). -/
structure ParamInput where
  key : Option String := none
  value : Value := .undefined
  explode : Option Bool := none
  style : Option SerializationStyle := none
  encode : Option Bool := none
  isLimit : Bool := false
  isOffset : Bool := false
  isCursor : Bool := false

/-- `Request.addPathParam`: skips undefined values, defaults
`explode := false`, `style := SIMPLE`, `encode := true`. -/
def Request.addPathParam (r : Request) (key : String) (param : ParamInput) : Request :=
  match param.value with
  | .undefined => r
  | _ =>
    { r with
      pathParams := r.pathParams.set key
        { key := param.key
          value := param.value
          explode := param.explode.getD false
          style := param.style.getD SerializationStyle.SIMPLE
          encode := param.encode.getD true
          isLimit := param.isLimit
          isOffset := param.isOffset
          isCursor := param.isCursor } }

/-- `Request.addQueryParam`: skips undefined values, defaults
`explode := true`, `style := FORM`, `encode := true`. -/
def Request.addQueryParam (r : Request) (key : String) (param : ParamInput) : Request :=
  match param.value with
  | .undefined => r
  | _ =>
    { r with
      queryParams := r.queryParams.set key
        { key := param.key
          value := param.value
          explode := param.explode.getD true
          style := param.style.getD SerializationStyle.FORM
          encode := param.encode.getD true
          isLimit := param.isLimit
          isOffset := param.isOffset
          isCursor := param.isCursor } }

/-- `Request.addHeaderParam`: skips undefined values, defaults
`explode := false`, `style := SIMPLE`, `encode := false`. -/
def Request.addHeaderParam (r : Request) (key : String) (param : ParamInput) : Request :=
  match param.value with
  | .undefined => r
  | _ =>
    { r with
      headers := r.headers.set key
        { key := param.key
          value := param.value
          explode := param.explode.getD false
          style := param.style.getD SerializationStyle.SIMPLE
          encode := param.encode.getD false
          isLimit := param.isLimit
          isOffset := param.isOffset
          isCursor := param.isCursor } }

/-- `Request.constructPath` (private in the source). -/
def Request.constructPath (r : Request) : String :=
  PathSerializer.serialize r.pathPattern r.pathParams

/-- `Request.constructFullUrl`: base URL, re-serialized path, query string. -/
def Request.constructFullUrl (r : Request) : String :=
  let queryString := QuerySerializer.serialize r.queryParams
  let path := r.constructPath
  r.baseUrl ++ path ++ queryString

/-- The overrides accepted by `Request.copy`
(`Partial<CreateRequestParameters>`): `none` models an absent key. -/
structure CopyOverrides where
  baseUrl : Option String := none
  method : Option HttpMethod := none
  body : Option Value := none
  headers : Option PMap := none
  queryParams : Option PMap := none
  pathParams : Option PMap := none
  cookies : Option PMap := none
  path : Option String := none
  config : Option SdkConfig := none
  responses : Option (List ResponseDefinition) := none
  errors : Option (List ErrorDefinition) := none
  requestSchema : Option Nat := none
  requestContentType : Option ContentType := none
  pagination : Option PaginationChoice := none
  filename : Option String := none
  filenames : Option (List String) := none

/-- The empty override set (`copy()` with no argument). -/
def CopyOverrides.empty : CopyOverrides := {}

/-- `Request.copy` from `transport/request.ts`: builds a
`CreateRequestParameters` literal listing every field except `pagination`
(each defaulting to the current value), then spreads the overrides on top and
constructs a new `Request`.  Consequently `pagination` is carried over only
when it is explicitly overridden, and the new private path pattern is the
current public `path` field. -/
def Request.copy (r : Request) (overrides : CopyOverrides) : Request :=
  Request.new
    { baseUrl := overrides.baseUrl.getD r.baseUrl
      errors := overrides.errors.getD r.errors
      method := overrides.method.getD r.method
      path := overrides.path.getD r.path
      body := match overrides.body with
        | some b => b
        | none => r.body
      config := overrides.config.getD r.config
      pathParams := overrides.pathParams.getD r.pathParams
      queryParams := overrides.queryParams.getD r.queryParams
      headers := overrides.headers.getD r.headers
      cookies := overrides.cookies.getD r.cookies
      responses := overrides.responses.getD r.responses
      requestSchema := overrides.requestSchema.getD r.requestSchema
      requestContentType := overrides.requestContentType.getD r.requestContentType
      filename := overrides.filename.or r.filename
      filenames := overrides.filenames.or r.filenames
      pagination := overrides.pagination }

/-- `Request.getAllParams`: headers, then query, then path, then cookie
parameters, in map order. -/
def Request.getAllParams (r : Request) : List RequestParameter :=
  r.headers.map (fun e => e.2) ++ r.queryParams.map (fun e => e.2) ++
    r.pathParams.map (fun e => e.2) ++ r.cookies.map (fun e => e.2)

/-- `Request.getOffsetParam`. -/
def Request.getOffsetParam (r : Request) : Option RequestParameter :=
  r.getAllParams.find? (fun p => p.isOffset)

/-- `Request.getCursorParam`. -/
def Request.getCursorParam (r : Request) : Option RequestParameter :=
  r.getAllParams.find? (fun p => p.isCursor)

/-- Applies `f` to the first parameter satisfying `p` in one map; `none` when
there is no such parameter. -/
def PMap.updateFirst (p : RequestParameter → Bool) (f : RequestParameter → RequestParameter) :
    PMap → Option PMap
  | [] => none
  | e :: rest =>
    if p e.2 then some ((e.1, f e.2) :: rest)
    else (PMap.updateFirst p f rest).map (fun m => e :: m)

/-- Mutating the parameter object found by `getAllParams().find(...)` updates
it inside whichever map holds it; maps are searched in `getAllParams` order. -/
def Request.updateFirstParam (r : Request) (p : RequestParameter → Bool)
    (f : RequestParameter → RequestParameter) : Request :=
  match PMap.updateFirst p f r.headers with
  | some m => { r with headers := m }
  | none =>
    match PMap.updateFirst p f r.queryParams with
    | some m => { r with queryParams := m }
    | none =>
      match PMap.updateFirst p f r.pathParams with
      | some m => { r with pathParams := m }
      | none =>
        match PMap.updateFirst p f r.cookies with
        | some m => { r with cookies := m }
        | none => r

/-- `Number(offsetParam.value) + pageSize`, landing on `NaN` when the coercion
does. -/
def advanceOffsetValue (v : Value) (pageSize : JsNum) : Value :=
  match jsNumberOf v with
  | some q => .vnum (q.add pageSize)
  | none => .vnan

/-- `Request.nextPage` from `transport/request.ts`. -/
def Request.nextPage (r : Request) (cursor : Option String) : Except String Request :=
  match r.pagination with
  | none => .ok r
  | some (.cursor _) =>
    match r.getCursorParam, cursor with
    | some _, some c =>
      .ok (r.updateFirstParam (fun p => p.isCursor) (fun p => { p with value := .vstr c }))
    | _, _ => .ok r
  | some (.offset pag) =>
    match r.getOffsetParam with
    | none => .ok r
    | some _ =>
      match pag.pageSize with
      | none => .error "pageSize is required for limit-offset pagination"
      | some ps =>
        .ok (r.updateFirstParam (fun p => p.isOffset)
          (fun p => { p with value := advanceOffsetValue p.value ps }))

/-- The classification chain of `getContentTypeDefinition`
(`utils/content-type.ts`), operating on the already lower-cased characters. -/
def getContentTypeDefinitionList (ct : List Char) : ContentType :=
  if charsIsPrefix "application/".toList ct && charsContains "xml".toList ct then
    ContentType.Xml
  else if ct = "application/x-www-form-urlencoded".toList then
    ContentType.FormUrlEncoded
  else if ct = "text/event-stream".toList then
    ContentType.EventStream
  else if ct = "application/json".toList ∨ ct = "text/json".toList ∨
      charsContains "+json".toList ct then
    ContentType.Json
  else if ct = "application/javascript".toList then
    ContentType.Text
  else if charsIsPrefix "text/".toList ct then
    ContentType.Text
  else if ct = "image/svg+xml".toList then
    ContentType.Text
  else if charsIsPrefix "image/".toList ct then
    ContentType.Image
  else if ct = "application/octet-stream".toList ∨ ct = "application/pdf".toList then
    ContentType.Binary
  else if ct = "*/*".toList then
    ContentType.Binary
  else
    ContentType.Binary

/-- `getContentTypeDefinition` from `utils/content-type.ts`: lower-cases the
header value, then classifies it. -/
def getContentTypeDefinition (contentType : String) : ContentType :=
  getContentTypeDefinitionList (jsToLower contentType)

/-- Response metadata (`types.ts`, `HttpMetadata`). -/
structure HttpMetadata where
  status : Int
  statusText : String
  headers : List (String × String)

/-- An HTTP response as it travels up the chain; `data` is `undefined` until a
decoder populates it, `raw` holds the raw body bytes. -/
structure HttpResponse where
  data : Value := .undefined
  metadata : HttpMetadata
  raw : String := ""

/-- The errors a downstream handler can raise: an `HttpError` (carrying
response metadata) or any other thrown error. -/
inductive RequestError where
  | httpError : HttpMetadata → String → RequestError
  | jsError : String → RequestError

/-- `RetryHandler.shouldRetry` from `handlers/retry-handler.ts`: only
`HttpError`s retry, and only when both the status check and the method check
pass. -/
def RetryHandler.shouldRetry (r : Request) (error : RequestError) : Bool :=
  match error with
  | .jsError _ => false
  | .httpError metadata _ =>
    let httpMethodsToRetry := ((r.config.retry.bind
        (fun o => o.httpMethodsToRetry))).getD
      [HttpMethod.GET, HttpMethod.POST, HttpMethod.PUT, HttpMethod.DELETE,
        HttpMethod.PATCH, HttpMethod.HEAD, HttpMethod.OPTIONS]
    let shouldRetryStatus :=
      match r.config.retry.bind (fun o => o.statusCodesToRetry) with
      | some codes => codes.contains metadata.status
      | none =>
        decide (500 ≤ metadata.status) || [(408 : Int), 429].contains metadata.status
    let shouldRetryMethod := httpMethodsToRetry.contains r.method
    shouldRetryStatus && shouldRetryMethod

/-- `RetryHandler.calculateDelay` from `handlers/retry-handler.ts`.  `rand`
supplies the `Math.random()` draw for each attempt. -/
def RetryHandler.calculateDelay (r : Request) (rand : Nat → JsNum) (attempt : Nat) : Int :=
  let baseDelay := (r.config.retry.bind (fun o => o.delayMs)).getD (JsNum.ofInt 150)
  let backoffFactor := (r.config.retry.bind (fun o => o.backoffFactor)).getD (JsNum.ofInt 2)
  let maxDelay := (r.config.retry.bind (fun o => o.maxDelayMs)).getD (JsNum.ofInt 5000)
  let jitter := (r.config.retry.bind (fun o => o.jitterMs)).getD (JsNum.ofInt 50)
  let delay := baseDelay.mul (backoffFactor.pow (attempt - 1))
  let delay := delay.min maxDelay
  let delay := if jitter.isPos then delay.add ((rand attempt).mul jitter) else delay
  delay.floorInt

/-- One execution of the `for` loop of `RetryHandler.handle`.  `fuel + 1` is
the number of loop iterations still available (so the current attempt is the
last one exactly when `fuel = 0`), `made` counts downstream attempts already
made, and `delays` accumulates the computed backoff delays in reverse. -/
def RetryHandler.go (r : Request) (next : Nat → Except RequestError HttpResponse)
    (rand : Nat → JsNum) :
    Nat → Nat → Nat → List Int → Except RequestError HttpResponse × Nat × List Int
  | 0, _, made, delays => (.error (.jsError "Error retrying request."), made, delays.reverse)
  | fuel + 1, attempt, made, delays =>
    match next attempt with
    | .ok response => (.ok response, made + 1, delays.reverse)
    | .error e =>
      if !RetryHandler.shouldRetry r e || fuel == 0 then (.error e, made + 1, delays.reverse)
      else
        RetryHandler.go r next rand fuel (attempt + 1) (made + 1)
          (RetryHandler.calculateDelay r rand attempt :: delays)

/-- `RetryHandler.handle`: runs the downstream call up to
`config.retry.attempts ?? 3` times.  Returns the final outcome together with
the number of attempts made and the list of computed delays. -/
def RetryHandler.handle (r : Request) (next : Nat → Except RequestError HttpResponse)
    (rand : Nat → JsNum) : Except RequestError HttpResponse × Nat × List Int :=
  let maxAttempts := (r.config.retry.bind (fun o => o.attempts)).getD 3
  RetryHandler.go r next rand maxAttempts 1 0 []

/-- JavaScript member access `curr[segment]` for the pagination walks. -/
def jsIndex (v : Value) (segment : String) : Value :=
  match v with
  | .vobj fields => fields.get segment
  | .varr l =>
    match segment.toNat? with
    | some i => l.getIdx i
    | none => .undefined
  | _ => .undefined

/-- The `for (const segment of pagePath)` walk of `HttpClient.getPage`: no
nullish guard, so indexing into `null`/`undefined` raises a `TypeError`. -/
def walkPagePath : Value → List String → Except String Value
  | v, [] => .ok v
  | v, segment :: rest =>
    match v with
    | .undefined => .error "TypeError: cannot read properties of undefined"
    | .vnull => .error "TypeError: cannot read properties of null"
    | w => walkPagePath (jsIndex w segment) rest

/-- `pagePath` of either pagination variant. -/
def PaginationChoice.pagePath : PaginationChoice → List String
  | .offset p => p.pagePath
  | .cursor p => p.pagePath

/-- `pageSchema` of either pagination variant. -/
def PaginationChoice.pageSchema : PaginationChoice → Option SchemaFn
  | .offset p => p.pageSchema
  | .cursor p => p.pageSchema

/-- `HttpClient.getPage` from `client.ts`: walks `pagePath`, parses with
`pageSchema`, and raises when the result is missing or falsy. -/
def HttpClient.getPage (r : Request) (data : Value) : Except String Value :=
  match r.pagination with
  | none => .error "getPage called for request without pagination property"
  | some pagination => do
    let curr ← walkPagePath data pagination.pagePath
    match pagination.pageSchema with
    | none => .error "error getting page data"
    | some parse => do
      let page ← parse curr
      if jsFalsy page then .error "error getting page data" else .ok page

/-- The cursor-path walk of `HttpClient.getNextCursor`: stops with `none` as
soon as the current value is `null`/`undefined` before a remaining segment. -/
def cursorWalk : Value → List String → Option Value
  | v, [] => some v
  | v, segment :: rest =>
    match v with
    | .vnull => none
    | .undefined => none
    | w => cursorWalk (jsIndex w segment) rest

/-- `HttpClient.getNextCursor` from `client.ts`: `undefined` for non-cursor
pagination, `null` when the walk meets a nullish intermediate value, otherwise
`cursorSchema?.parse(curr) ?? null`. -/
def HttpClient.getNextCursor (r : Request) (data : Value) : Except String Value :=
  match r.pagination with
  | some (.cursor pagination) =>
    match cursorWalk data pagination.cursorPath with
    | none => .ok .vnull
    | some curr =>
      match pagination.cursorSchema with
      | none => .ok .vnull
      | some parse =>
        (parse curr).map (fun v =>
          match v with
          | .vnull => .vnull
          | .undefined => .vnull
          | w => w)
  | _ => .ok .undefined

/-- `HttpClient.callPaginated` from `client.ts`, applied to the response of
the underlying `call`: raises when the decoded data is falsy, otherwise
replaces it by the extracted page. -/
def HttpClient.callPaginated (r : Request) (response : HttpResponse) :
    Except String HttpResponse :=
  if jsFalsy response.data then .error "no response data to paginate through"
  else do
    let page ← HttpClient.getPage r response.data
    .ok { response with data := page }

/-- `HttpClient.callCursorPaginated` from `client.ts`: like `callPaginated`
but also extracts the next cursor. -/
def HttpClient.callCursorPaginated (r : Request) (response : HttpResponse) :
    Except String (HttpResponse × Value) :=
  if jsFalsy response.data then .error "no response data to paginate through"
  else do
    let page ← HttpClient.getPage r response.data
    let nextCursor ← HttpClient.getNextCursor r response.data
    .ok ({ response with data := page }, nextCursor)

/-- The hook-visible request view (`hooks/hook.ts`, `HttpRequest`): plain
value maps without serialization metadata. -/
structure HttpRequestView where
  baseUrl : String
  method : HttpMethod
  path : String
  headers : List (String × Value)
  body : Value
  queryParams : List (String × Value)
  pathParams : List (String × Value)

/-- `TransportHookAdapter.requestToHookRequest`: extracts the parameter values
from their `RequestParameter` wrappers. -/
def TransportHookAdapter.requestToHookRequest (r : Request) : HttpRequestView where
  baseUrl := r.baseUrl
  method := r.method
  path := r.path
  headers := r.headers.map (fun e => (e.1, e.2.value))
  body := r.body
  queryParams := r.queryParams.map (fun e => (e.1, e.2.value))
  pathParams := r.pathParams.map (fun e => (e.1, e.2.value))

/-- `TransportHookAdapter.hookParamsToTransportParams`: rebuilds
`RequestParameter`s from hook values, looking serialization metadata up in
`originalTransportParams` and defaulting it when the key is missing there.
The `encode` argument of the source is unused in its body and is kept only
for shape. -/
def TransportHookAdapter.hookParamsToTransportParams (hookParams : List (String × Value))
    (originalTransportParams : PMap) (_encode : Bool) : PMap :=
  hookParams.map (fun e =>
    let requestParam := PMap.get originalTransportParams e.1
    (e.1,
      { key := some e.1
        value := e.2
        encode := (requestParam.map (fun p => p.encode)).getD false
        style := (requestParam.map (fun p => p.style)).getD SerializationStyle.NONE
        explode := (requestParam.map (fun p => p.explode)).getD false
        isLimit := (requestParam.map (fun p => p.isLimit)).getD false
        isOffset := (requestParam.map (fun p => p.isOffset)).getD false
        isCursor := (requestParam.map (fun p => p.isCursor)).getD false }))

/-- `TransportHookAdapter.beforeRequest`: converts the request to the hook
view, runs the hook, and folds the result back through `Request.copy`.  The
source passes `request.headers` — not `request.pathParams` — as the metadata
source for the rebuilt path parameters; the embedding mirrors that. -/
def TransportHookAdapter.beforeRequest (r : Request)
    (hook : HttpRequestView → HttpRequestView) : Request :=
  let hookRequest := TransportHookAdapter.requestToHookRequest r
  let newRequest := hook hookRequest
  Request.copy r
    { CopyOverrides.empty with
      baseUrl := some newRequest.baseUrl
      method := some newRequest.method
      path := some newRequest.path
      body := some newRequest.body
      queryParams := some (TransportHookAdapter.hookParamsToTransportParams
        newRequest.queryParams r.queryParams true)
      headers := some (TransportHookAdapter.hookParamsToTransportParams
        newRequest.headers r.headers false)
      pathParams := some (TransportHookAdapter.hookParamsToTransportParams
        newRequest.pathParams r.headers false) }

/-- `ResponseValidationHandler.validate`: applies the response schema when
response validation is enabled (default `true`), otherwise passes the data
through. -/
def ResponseValidationHandler.validate (r : Request) (response : ResponseDefinition)
    (data : Value) : Except String Value :=
  if (r.config.validation.bind (fun v => v.responseValidation)).getD true then
    match response.schema with
    | some schema => schema data
    | none => .error "TypeError: schema is undefined"
  else .ok data

/-- The `ContentType.EventStream` branch of
`ResponseValidationHandler.decodeFromArrayBuffer`: strips a leading
`data: ` prefix from the decoded text, parses JSON, validates. -/
def ResponseValidationHandler.decodeEventStream (r : Request)
    (responseDefinition : ResponseDefinition) (bodyText : String) : Except String Value :=
  let decodedBody :=
    if charsIsPrefix "data: ".toList bodyText.toList then bodyText.drop 6 else bodyText
  match jsonParse decodedBody with
  | .error e => .error e
  | .ok json => ResponseValidationHandler.validate r responseDefinition json

/-- The default (JSON) branch of
`ResponseValidationHandler.decodeFromArrayBuffer`, used for every content type
without a dedicated handler entry — in particular `ContentType.Json`. -/
def ResponseValidationHandler.decodeJsonDefault (r : Request)
    (responseDefinition : ResponseDefinition) (bodyText : String) : Except String Value :=
  match jsonParse bodyText with
  | .error e => .error e
  | .ok json => ResponseValidationHandler.validate r responseDefinition json

/-! ### Helper lemmas -/

theorem charsIsPrefix_cons_cons (c d : Char) (cs l : List Char) :
    charsIsPrefix (c :: cs) (d :: l) = (c == d && charsIsPrefix cs l) := rfl

theorem charsReplaceFirst_cons (c : Char) (rest pat repl : List Char) :
    charsReplaceFirst (c :: rest) pat repl =
      if charsIsPrefix pat (c :: rest) = true then repl ++ (c :: rest).drop pat.length
      else c :: charsReplaceFirst rest pat repl := rfl

theorem charsIsPrefix_self_append (p t : List Char) : charsIsPrefix p (p ++ t) = true := by
  induction p with
  | nil => rfl
  | cons c cs ih => simp [charsIsPrefix_cons_cons, ih]

theorem charsIsPrefix_head_extract {c : Char} {p l : List Char}
    (h : charsIsPrefix (c :: p) l = true) :
    ∃ t, l = c :: t ∧ charsIsPrefix p t = true := by
  cases l with
  | nil => simp [charsIsPrefix] at h
  | cons d ds =>
    rw [charsIsPrefix_cons_cons, Bool.and_eq_true] at h
    exact ⟨ds, by rw [eq_of_beq h.1], h.2⟩

theorem charsReplaceFirst_of_not_contains (pat repl : List Char) :
    ∀ s : List Char, charsContains pat s = false → charsReplaceFirst s pat repl = s := by
  intro s
  induction s with
  | nil =>
    intro h
    unfold charsContains at h
    unfold charsReplaceFirst
    simp [h]
  | cons c rest ih =>
    intro h
    unfold charsContains at h
    rw [Bool.or_eq_false_iff] at h
    rw [charsReplaceFirst_cons, if_neg (by simp [h.1]), ih h.2]

theorem charsReplaceFirst_boundary (c : Char) (p t repl : List Char) :
    ∀ s : List Char, c ∉ s →
      charsReplaceFirst (s ++ (c :: p) ++ t) (c :: p) repl = s ++ (repl ++ t) := by
  intro s
  induction s with
  | nil =>
    intro _
    have h1 : ([] : List Char) ++ (c :: p) ++ t = c :: (p ++ t) := by simp
    rw [h1, charsReplaceFirst_cons]
    have h2 : charsIsPrefix (c :: p) (c :: (p ++ t)) = true :=
      charsIsPrefix_self_append (c :: p) t
    rw [if_pos h2]
    have h3 : List.drop (c :: p).length (c :: (p ++ t)) = t :=
      List.drop_left (c :: p) t
    rw [h3]
    simp
  | cons d ds ih =>
    intro h
    have hdc : c ≠ d := fun hcd => h (by rw [hcd]; exact List.mem_cons_self d ds)
    rw [show (d :: ds) ++ (c :: p) ++ t = d :: (ds ++ (c :: p) ++ t) from by simp]
    rw [charsReplaceFirst_cons]
    rw [if_neg (by rw [charsIsPrefix_cons_cons, beq_eq_false_iff_ne.mpr hdc]; simp)]
    rw [ih (fun hm => h (List.mem_cons_of_mem d hm))]
    simp

theorem charsIsPrefix_decompose :
    ∀ (pat s : List Char), charsIsPrefix pat s = true → s = pat ++ s.drop pat.length := by
  intro pat
  induction pat with
  | nil => intro s _; rfl
  | cons c cs ih =>
    intro s h
    cases s with
    | nil => simp [charsIsPrefix] at h
    | cons d ds =>
      rw [charsIsPrefix_cons_cons, Bool.and_eq_true] at h
      have hcd := eq_of_beq h.1
      subst hcd
      exact congrArg (fun l => c :: l) (ih ds h.2)

theorem charsReplaceFirst_first_occurrence :
    ∀ (s pat repl : List Char), charsContains pat s = true →
      ∃ a b : List Char, s = a ++ pat ++ b ∧
        charsReplaceFirst s pat repl = a ++ repl ++ b ∧
        ∀ a2 b2 : List Char, s = a2 ++ pat ++ b2 → a.length ≤ a2.length := by
  intro s
  induction s with
  | nil =>
    intro pat repl h
    unfold charsContains at h
    cases pat with
    | cons c cs => simp at h
    | nil =>
      refine ⟨[], [], rfl, ?_, ?_⟩
      · simp [charsReplaceFirst]
      · intro a2 b2 _
        exact Nat.zero_le _
  | cons c rest ih =>
    intro pat repl h
    unfold charsContains at h
    rw [Bool.or_eq_true] at h
    by_cases hp : charsIsPrefix pat (c :: rest) = true
    · refine ⟨[], (c :: rest).drop pat.length, ?_, ?_, ?_⟩
      · rw [List.nil_append]
        exact charsIsPrefix_decompose pat (c :: rest) hp
      · rw [charsReplaceFirst_cons, if_pos hp, List.nil_append]
      · intro a2 b2 _
        exact Nat.zero_le _
    · have hrest : charsContains pat rest = true := by
        rcases h with h1 | h2
        · exact absurd h1 hp
        · exact h2
      obtain ⟨a, b, hdec, hrepl, hmin⟩ := ih pat repl hrest
      refine ⟨c :: a, b, ?_, ?_, ?_⟩
      · rw [List.cons_append, List.cons_append, ← hdec]
      · rw [charsReplaceFirst_cons, if_neg hp, hrepl]
        simp [List.cons_append]
      · intro a2 b2 heq
        cases a2 with
        | nil =>
          exfalso
          apply hp
          rw [List.nil_append] at heq
          rw [heq]
          exact charsIsPrefix_self_append pat b2
        | cons c2 a2tail =>
          simp only [List.cons_append] at heq
          have hrest2 : rest = a2tail ++ pat ++ b2 := (List.cons.inj heq).2
          exact Nat.succ_le_succ (hmin a2tail b2 hrest2)

theorem find?_append_of_none {α : Type} (l1 l2 : List α) (p : α → Bool)
    (h : l1.find? p = none) : (l1 ++ l2).find? p = l2.find? p := by
  induction l1 with
  | nil => rfl
  | cons a l ih =>
    cases hpa : p a with
    | true => simp [List.find?_cons, hpa] at h
    | false =>
      simp only [List.find?_cons, hpa, cond_false, List.cons_append] at h ⊢
      exact ih h

theorem find?_eq_none_of_all_false {α : Type} (l : List α) (p : α → Bool)
    (h : ∀ a ∈ l, p a = false) : l.find? p = none :=
  List.find?_eq_none.mpr (fun a ha => by rw [h a ha]; exact Bool.false_ne_true)

theorem map_find?_none (m : PMap) (p : RequestParameter → Bool)
    (h : ∀ e ∈ m, p e.2 = false) : (m.map (fun e => e.2)).find? p = none :=
  find?_eq_none_of_all_false _ _ (by
    intro a ha
    obtain ⟨e, he, rfl⟩ := List.mem_map.mp ha
    exact h e he)

theorem PMap.updateFirst_cons (p : RequestParameter → Bool)
    (f : RequestParameter → RequestParameter) (e : String × RequestParameter) (rest : PMap) :
    PMap.updateFirst p f (e :: rest) =
      if p e.2 = true then some ((e.1, f e.2) :: rest)
      else (PMap.updateFirst p f rest).map (fun m => e :: m) := rfl

theorem PMap.updateFirst_none (p : RequestParameter → Bool)
    (f : RequestParameter → RequestParameter) :
    ∀ m : PMap, (∀ e ∈ m, p e.2 = false) → PMap.updateFirst p f m = none := by
  intro m
  induction m with
  | nil => intro _; rfl
  | cons e rest ih =>
    intro h
    rw [PMap.updateFirst_cons, if_neg (by simp [h e (List.mem_cons_self e rest)])]
    rw [ih (fun x hx => h x (List.mem_cons_of_mem e hx))]
    rfl

theorem PMap.updateFirst_found (p : RequestParameter → Bool)
    (f : RequestParameter → RequestParameter) (post : PMap) (k : String)
    (param : RequestParameter) (hp : p param = true) :
    ∀ pre : PMap, (∀ e ∈ pre, p e.2 = false) →
      PMap.updateFirst p f (pre ++ (k, param) :: post) = some (pre ++ (k, f param) :: post) := by
  intro pre
  induction pre with
  | nil =>
    intro _
    rw [List.nil_append, PMap.updateFirst_cons, if_pos hp, List.nil_append]
  | cons e rest ih =>
    intro hpre
    rw [List.cons_append, PMap.updateFirst_cons,
      if_neg (by simp [hpre e (List.mem_cons_self e rest)])]
    rw [ih (fun x hx => hpre x (List.mem_cons_of_mem e hx))]
    rfl

theorem RetryHandler.go_zero (r : Request) (next : Nat → Except RequestError HttpResponse)
    (rand : Nat → JsNum) (attempt made : Nat) (delays : List Int) :
    RetryHandler.go r next rand 0 attempt made delays =
      (.error (.jsError "Error retrying request."), made, delays.reverse) := rfl

theorem RetryHandler.go_succ (r : Request) (next : Nat → Except RequestError HttpResponse)
    (rand : Nat → JsNum) (fuel attempt made : Nat) (delays : List Int) :
    RetryHandler.go r next rand (fuel + 1) attempt made delays =
      match next attempt with
      | .ok response => (.ok response, made + 1, delays.reverse)
      | .error e =>
        if !RetryHandler.shouldRetry r e || fuel == 0 then (.error e, made + 1, delays.reverse)
        else
          RetryHandler.go r next rand fuel (attempt + 1) (made + 1)
            (RetryHandler.calculateDelay r rand attempt :: delays) := rfl

theorem retry_go_made_le (r : Request) (next : Nat → Except RequestError HttpResponse)
    (rand : Nat → JsNum) :
    ∀ (fuel attempt made : Nat) (delays : List Int),
      (RetryHandler.go r next rand fuel attempt made delays).2.1 ≤ made + fuel := by
  intro fuel
  induction fuel with
  | zero =>
    intro attempt made delays
    rw [RetryHandler.go_zero]
    simp
  | succ f ih =>
    intro attempt made delays
    rw [RetryHandler.go_succ]
    cases hnext : next attempt with
    | ok response => simp
    | error e =>
      simp only []
      by_cases hc : (!RetryHandler.shouldRetry r e || f == 0) = true
      · rw [if_pos hc]
        simp
      · rw [if_neg hc]
        have := ih (attempt + 1) (made + 1)
          (RetryHandler.calculateDelay r rand attempt :: delays)
        omega

theorem retry_go_persistent_retryable (r : Request) (e : RequestError) (rand : Nat → JsNum)
    (hres : RetryHandler.shouldRetry r e = true) :
    ∀ fuel : Nat, 1 ≤ fuel → ∀ (attempt made : Nat) (delays : List Int),
      (RetryHandler.go r (fun _ => .error e) rand fuel attempt made delays).1 = .error e ∧
      (RetryHandler.go r (fun _ => .error e) rand fuel attempt made delays).2.1 = made + fuel := by
  intro fuel
  induction fuel with
  | zero => intro h; omega
  | succ f ih =>
    intro _ attempt made delays
    rw [RetryHandler.go_succ]
    cases f with
    | zero => simp [hres]
    | succ f2 =>
      have hcond : (!RetryHandler.shouldRetry r e || (f2 + 1 : Nat) == 0) = false := by
        rw [hres]
        rfl
      simp only [hcond, Bool.false_eq_true, if_false]
      have := ih (by omega) (attempt + 1) (made + 1)
        (RetryHandler.calculateDelay r rand attempt :: delays)
      exact ⟨this.1, by rw [this.2]; omega⟩

/-! ### Concrete fixtures -/

namespace Fix

/-- A GET request with entirely default configuration. -/
def getRequest : Request :=
  Request.new
    { baseUrl := "https://api", method := HttpMethod.GET, headers := [], queryParams := [],
      pathParams := [], cookies := [], path := "/accounts", config := {}, responses := [],
      errors := [], requestSchema := 0, requestContentType := ContentType.Json }

/-- A 404 HTTP error. -/
def e404 : RequestError := .httpError ⟨404, "Not Found", []⟩ "not found"

/-- A 503 HTTP error. -/
def e503 : RequestError := .httpError ⟨503, "Service Unavailable", []⟩ "unavailable"

/-- The retry options of the backoff-bounds scenario:
`attempts=4, delayMs=100, backoffFactor=2, maxDelayMs=500, jitterMs=0`. -/
def retryC2 : RetryOptions :=
  { attempts := some 4, delayMs := some (JsNum.ofInt 100),
    backoffFactor := some (JsNum.ofInt 2), maxDelayMs := some (JsNum.ofInt 500),
    jitterMs := some (JsNum.ofInt 0) }

/-- The GET request of the backoff-bounds scenario. -/
def requestC2 : Request := { getRequest with config := { retry := some retryC2 } }

end Fix

/-! ### Claims -/

/-- C1: with a persistently failing downstream call, `RetryHandler.handle`
makes at most the configured number of attempts (default 3); it retries only
when the failure is an `HttpError` whose status is in the retry set (the
configured `statusCodesToRetry`, or by default every status ≥ 500 plus 408 and
429) and whose request method is in the retryable-method set (default GET,
POST, PUT, DELETE, PATCH, HEAD, OPTIONS); any non-retryable failure is
re-raised unchanged after exactly 1 attempt — in particular a 404 on a GET
under default configuration — and a persistently retryable failure is
re-raised unchanged after exactly the configured number of attempts. -/
theorem C1_retry_bounded_and_selective (r : Request) (e : RequestError) (rand : Nat → JsNum) :
    (RetryHandler.handle r (fun _ => .error e) rand).2.1 ≤
        (r.config.retry.bind (fun o => o.attempts)).getD 3 ∧
    (RetryHandler.shouldRetry r e = true ↔
      ∃ metadata msg, e = RequestError.httpError metadata msg ∧
        (match r.config.retry.bind (fun o => o.statusCodesToRetry) with
          | some codes => metadata.status ∈ codes
          | none => 500 ≤ metadata.status ∨ metadata.status = 408 ∨ metadata.status = 429) ∧
        r.method ∈ (r.config.retry.bind (fun o => o.httpMethodsToRetry)).getD
          [HttpMethod.GET, HttpMethod.POST, HttpMethod.PUT, HttpMethod.DELETE,
            HttpMethod.PATCH, HttpMethod.HEAD, HttpMethod.OPTIONS]) ∧
    (1 ≤ (r.config.retry.bind (fun o => o.attempts)).getD 3 →
      RetryHandler.shouldRetry r e = false →
      RetryHandler.handle r (fun _ => .error e) rand = (.error e, 1, [])) ∧
    (1 ≤ (r.config.retry.bind (fun o => o.attempts)).getD 3 →
      RetryHandler.shouldRetry r e = true →
      (RetryHandler.handle r (fun _ => .error e) rand).1 = .error e ∧
      (RetryHandler.handle r (fun _ => .error e) rand).2.1 =
        (r.config.retry.bind (fun o => o.attempts)).getD 3) ∧
    RetryHandler.handle Fix.getRequest (fun _ => .error Fix.e404) rand =
      (.error Fix.e404, 1, []) := by
  refine ⟨?_, ?_, ?_, ?_, ?_⟩
  · have h := retry_go_made_le r (fun _ => .error e) rand
      ((r.config.retry.bind (fun o => o.attempts)).getD 3) 1 0 []
    simpa [RetryHandler.handle] using h
  · cases e with
    | jsError msg => simp [RetryHandler.shouldRetry]
    | httpError metadata msg =>
      simp only [RetryHandler.shouldRetry]
      rw [Bool.and_eq_true]
      cases hopt : r.config.retry.bind (fun o => o.statusCodesToRetry) with
      | some codes => simp [hopt]
      | none => simp [hopt, decide_eq_true_iff]
  · intro h1 hsr
    simp only [RetryHandler.handle]
    obtain ⟨f, hf⟩ : ∃ f, (r.config.retry.bind (fun o => o.attempts)).getD 3 = f + 1 :=
      ⟨(r.config.retry.bind (fun o => o.attempts)).getD 3 - 1, by omega⟩
    rw [hf, RetryHandler.go_succ]
    simp [hsr]
  · intro h1 hsr
    have h := retry_go_persistent_retryable r e rand hsr
      ((r.config.retry.bind (fun o => o.attempts)).getD 3) h1 1 0 []
    simpa [RetryHandler.handle] using h
  · rfl

/-- Witness for C1: a persistently failing 503 on a default-configuration GET
is retried to exhaustion — exactly 3 attempts — and re-raised unchanged. -/
theorem C1_witness :
    (RetryHandler.handle Fix.getRequest (fun _ => .error Fix.e503)
        (fun _ => JsNum.ofInt 0)).1 = .error Fix.e503 ∧
    (RetryHandler.handle Fix.getRequest (fun _ => .error Fix.e503)
        (fun _ => JsNum.ofInt 0)).2.1 = 3 :=
  (C1_retry_bounded_and_selective Fix.getRequest Fix.e503
      (fun _ => JsNum.ofInt 0)).2.2.2.1 (by decide) rfl

/-- C2 counterexample: under `attempts=4, delayMs=100, backoffFactor=2,
maxDelayMs=500, jitterMs=0` with a persistently failing 503 GET, the computed
delay sequence is `[100, 200, 400]` — three delays for the three retries —
and not `[100, 200, 400, 500]` as the claim states. -/
theorem C2_counterexample :
    (RetryHandler.handle Fix.requestC2 (fun _ => .error Fix.e503)
        (fun _ => JsNum.ofInt 0)).2.2 = [100, 200, 400] ∧
    (RetryHandler.handle Fix.requestC2 (fun _ => .error Fix.e503)
        (fun _ => JsNum.ofInt 0)).2.2 ≠ [100, 200, 400, 500] :=
  ⟨rfl, by decide⟩

/-- C2 (amended): with `attempts=4, delayMs=100, backoffFactor=2,
maxDelayMs=500, jitterMs=0` and a persistently failing 503 GET,
`RetryHandler.handle` makes exactly 4 total attempts before re-raising the
error, and the delays computed before the three retries are exactly
`[100, 200, 400]`, each equal to
`floor(min(maxDelayMs, delayMs * backoffFactor^(attempt-1)) + random(0, jitterMs))`;
the delay formula at attempt 4 would give the cap 500, but no delay follows
the final attempt. -/
theorem C2_amended_backoff_bounds (rand : Nat → JsNum) :
    RetryHandler.handle Fix.requestC2 (fun _ => .error Fix.e503) rand =
      (.error Fix.e503, 4, [100, 200, 400]) ∧
    RetryHandler.calculateDelay Fix.requestC2 rand 1 = 100 ∧
    RetryHandler.calculateDelay Fix.requestC2 rand 2 = 200 ∧
    RetryHandler.calculateDelay Fix.requestC2 rand 3 = 400 ∧
    RetryHandler.calculateDelay Fix.requestC2 rand 4 = 500 :=
  ⟨rfl, rfl, rfl, rfl, rfl⟩

/-- Witness for the amended C2 at a concrete random draw. -/
theorem C2_witness :
    RetryHandler.handle Fix.requestC2 (fun _ => .error Fix.e503)
        (fun _ => JsNum.mk 1 2) = (.error Fix.e503, 4, [100, 200, 400]) :=
  (C2_amended_backoff_bounds (fun _ => JsNum.mk 1 2)).1

/-- The path parameter used in the hook-adapter scenario: the defaults
`addPathParam` would install (`style=SIMPLE`, `explode=false`, `encode=true`). -/
def Fix.pathParamOriginal : RequestParameter :=
  { key := some "id", value := .vstr "7", explode := false, encode := true,
    style := SerializationStyle.SIMPLE, isLimit := false, isOffset := false, isCursor := false }

/-- A request carrying one path parameter and no headers. -/
def Fix.requestC3 : Request :=
  { Fix.getRequest with pathParams := [("id", Fix.pathParamOriginal)] }

/-- C3 (code-bug evaluation): `TransportHookAdapter.beforeRequest` passes
`request.headers` — not `request.pathParams` — as the metadata source when it
rebuilds the path parameters, so even under the identity (no-op) hook a path
parameter's serialization metadata is not preserved: with no header of the
same name, the rebuilt parameter gets `style = NONE` and `encode = false`
although the original had `style = SIMPLE` and `encode = true`. -/
theorem C3_path_metadata_lost :
    Fix.requestC3.pathParams = [("id", Fix.pathParamOriginal)] ∧
    PMap.get (TransportHookAdapter.beforeRequest Fix.requestC3 id).pathParams "id" =
      some { key := some "id", value := .vstr "7", encode := false,
             style := SerializationStyle.NONE, explode := false, isLimit := false,
             isOffset := false, isCursor := false } ∧
    Fix.pathParamOriginal.style = SerializationStyle.SIMPLE ∧
    Fix.pathParamOriginal.encode = true ∧
    SerializationStyle.NONE ≠ SerializationStyle.SIMPLE :=
  ⟨rfl, rfl, rfl, rfl, by decide⟩

/-- A limit-offset pagination descriptor. -/
def Fix.pagination4 : PaginationChoice := .offset ⟨some (JsNum.ofInt 20), ["items"], none⟩

/-- A request carrying a pagination descriptor. -/
def Fix.requestC4 : Request := { Fix.getRequest with pagination := some Fix.pagination4 }

/-- C4 counterexample: `copy()` with no overrides does not preserve the
pagination descriptor — the copied request has `pagination = none` although
the original carries one. -/
theorem C4_counterexample :
    (Fix.requestC4.copy CopyOverrides.empty).pagination = none ∧
    Fix.requestC4.pagination = some Fix.pagination4 ∧
    (Fix.requestC4.copy CopyOverrides.empty).pagination ≠ Fix.requestC4.pagination := by
  refine ⟨rfl, rfl, fun h => ?_⟩
  have h2 : (none : Option PaginationChoice) = some Fix.pagination4 := h
  exact Option.noConfusion h2

/-- C4 (amended): `Request.copy` returns a new request in which every field
not named in the overrides equals the corresponding current field — except the
pagination descriptor, which is carried over only when explicitly overridden
(a plain `copy()` yields a request without pagination), and the private path
pattern, which becomes the current public `path` field; each overridden field
equals the override value. -/
theorem C4_amended_copy_fields (r : Request) (o : CopyOverrides) :
    (r.copy o).baseUrl = o.baseUrl.getD r.baseUrl ∧
    (r.copy o).method = o.method.getD r.method ∧
    (r.copy o).pathPattern = o.path.getD r.path ∧
    (r.copy o).path = o.path.getD r.path ∧
    (r.copy o).body = (match o.body with | some b => b | none => r.body) ∧
    (r.copy o).config = o.config.getD r.config ∧
    (r.copy o).pathParams = o.pathParams.getD r.pathParams ∧
    (r.copy o).queryParams = o.queryParams.getD r.queryParams ∧
    (r.copy o).headers = o.headers.getD r.headers ∧
    (r.copy o).cookies = o.cookies.getD r.cookies ∧
    (r.copy o).responses = o.responses.getD r.responses ∧
    (r.copy o).errors = o.errors.getD r.errors ∧
    (r.copy o).requestSchema = o.requestSchema.getD r.requestSchema ∧
    (r.copy o).requestContentType = o.requestContentType.getD r.requestContentType ∧
    (r.copy o).filename = o.filename.or r.filename ∧
    (r.copy o).filenames = o.filenames.or r.filenames ∧
    (r.copy o).pagination = o.pagination :=
  ⟨rfl, rfl, rfl, rfl, rfl, rfl, rfl, rfl, rfl, rfl, rfl, rfl, rfl, rfl, rfl, rfl, rfl⟩

/-- Witness for the amended C4 at a concrete request and empty overrides. -/
theorem C4_witness :
    (Fix.requestC4.copy CopyOverrides.empty).pagination = CopyOverrides.empty.pagination :=
  (C4_amended_copy_fields Fix.requestC4 CopyOverrides.empty).2.2.2.2.2.2.2.2.2.2.2.2.2.2.2.2

theorem bne_true_of_eq_false {b : Bool} (h : b = false) : ¬(b = true) := by
  rw [h]
  exact Bool.false_ne_true

theorem charsIsPrefix_false_head {c d : Char} (cs t : List Char) (h : c ≠ d) :
    charsIsPrefix (c :: cs) (d :: t) = false := by
  rw [charsIsPrefix_cons_cons, beq_eq_false_iff_ne.mpr h]
  rfl

theorem appPfx_false_of_textPfx {l : List Char} (h : charsIsPrefix "text/".toList l = true) :
    charsIsPrefix "application/".toList l = false := by
  obtain ⟨t0, rfl, -⟩ :=
    charsIsPrefix_head_extract (show charsIsPrefix ('t' :: "ext/".toList) l = true from h)
  exact charsIsPrefix_false_head "pplication/".toList t0 (by decide)

theorem appPfx_false_of_imagePfx {l : List Char} (h : charsIsPrefix "image/".toList l = true) :
    charsIsPrefix "application/".toList l = false := by
  obtain ⟨t0, rfl, -⟩ :=
    charsIsPrefix_head_extract (show charsIsPrefix ('i' :: "mage/".toList) l = true from h)
  exact charsIsPrefix_false_head "pplication/".toList t0 (by decide)

theorem textPfx_false_of_imagePfx {l : List Char} (h : charsIsPrefix "image/".toList l = true) :
    charsIsPrefix "text/".toList l = false := by
  obtain ⟨t0, rfl, -⟩ :=
    charsIsPrefix_head_extract (show charsIsPrefix ('i' :: "mage/".toList) l = true from h)
  exact charsIsPrefix_false_head "ext/".toList t0 (by decide)

/-- The request/response-definition pair for the event-stream decoding
scenario: a schema accepting its input, default validation settings. -/
def Fix.eventStreamDef : ResponseDefinition :=
  ⟨some (fun v => .ok v), ContentType.EventStream, 200⟩

/-- C5: `getContentTypeDefinition` classifies content types exactly as the
specified table dictates, in its stated precedence order: `application/*`
containing `xml` is XML; exactly `application/x-www-form-urlencoded` is form;
exactly `text/event-stream` is event-stream; `application/json`, `text/json`
and every `+json` type are JSON, checked before the text rules;
`application/javascript` and every other `text/*` type are text;
`image/svg+xml` is text despite the `image/` prefix; every other `image/*`
type is image; `application/octet-stream`, `application/pdf`, `*/*` and every
unrecognized type are binary.  Consequently `application/vnd.api+json` is
classified JSON, and decoding the `text/event-stream` body
`data: \x7b"x":1\x7d` strips the `data: ` prefix and yields the object
`\x7bx:1\x7d`. -/
theorem C5_content_type_dispatch :
    (∀ ct : List Char, charsIsPrefix "application/".toList ct = true →
      charsContains "xml".toList ct = true →
      getContentTypeDefinitionList ct = ContentType.Xml) ∧
    getContentTypeDefinitionList "application/x-www-form-urlencoded".toList =
      ContentType.FormUrlEncoded ∧
    getContentTypeDefinitionList "text/event-stream".toList = ContentType.EventStream ∧
    getContentTypeDefinitionList "application/json".toList = ContentType.Json ∧
    getContentTypeDefinitionList "text/json".toList = ContentType.Json ∧
    (∀ ct : List Char, charsContains "+json".toList ct = true →
      ¬(charsIsPrefix "application/".toList ct = true ∧
          charsContains "xml".toList ct = true) →
      getContentTypeDefinitionList ct = ContentType.Json) ∧
    getContentTypeDefinitionList "application/javascript".toList = ContentType.Text ∧
    (∀ ct : List Char, charsIsPrefix "text/".toList ct = true →
      ct ≠ "text/event-stream".toList → ct ≠ "text/json".toList →
      charsContains "+json".toList ct = false →
      getContentTypeDefinitionList ct = ContentType.Text) ∧
    getContentTypeDefinitionList "image/svg+xml".toList = ContentType.Text ∧
    (∀ ct : List Char, charsIsPrefix "image/".toList ct = true →
      ct ≠ "image/svg+xml".toList → charsContains "+json".toList ct = false →
      getContentTypeDefinitionList ct = ContentType.Image) ∧
    getContentTypeDefinitionList "application/octet-stream".toList = ContentType.Binary ∧
    getContentTypeDefinitionList "application/pdf".toList = ContentType.Binary ∧
    getContentTypeDefinitionList "*/*".toList = ContentType.Binary ∧
    (∀ ct : List Char,
      (charsIsPrefix "application/".toList ct && charsContains "xml".toList ct) = false →
      ct ≠ "application/x-www-form-urlencoded".toList →
      ct ≠ "text/event-stream".toList →
      ct ≠ "application/json".toList →
      ct ≠ "text/json".toList →
      charsContains "+json".toList ct = false →
      ct ≠ "application/javascript".toList →
      charsIsPrefix "text/".toList ct = false →
      ct ≠ "image/svg+xml".toList →
      charsIsPrefix "image/".toList ct = false →
      getContentTypeDefinitionList ct = ContentType.Binary) ∧
    getContentTypeDefinition "application/vnd.api+json" = ContentType.Json ∧
    ResponseValidationHandler.decodeEventStream Fix.getRequest Fix.eventStreamDef
        "data: \x7b\"x\":1\x7d" = .ok (.vobj (.cons "x" (.vnum (JsNum.ofInt 1)) .nil)) := by
  refine ⟨?_, rfl, rfl, rfl, rfl, ?_, rfl, ?_, rfl, ?_, rfl, rfl, rfl, ?_, rfl, rfl⟩
  · intro ct h1 h2
    unfold getContentTypeDefinitionList
    rw [if_pos (by rw [h1, h2]; rfl)]
  · intro ct hjson hnotxml
    have hc1 : (charsIsPrefix "application/".toList ct &&
        charsContains "xml".toList ct) = false := by
      cases hx : charsIsPrefix "application/".toList ct with
      | false => rfl
      | true =>
        cases hy : charsContains "xml".toList ct with
        | false => rfl
        | true => exact absurd ⟨hx, hy⟩ hnotxml
    have hc2 : ct ≠ "application/x-www-form-urlencoded".toList := by
      intro he; rw [he] at hjson; exact absurd hjson (by decide)
    have hc3 : ct ≠ "text/event-stream".toList := by
      intro he; rw [he] at hjson; exact absurd hjson (by decide)
    unfold getContentTypeDefinitionList
    rw [if_neg (bne_true_of_eq_false hc1), if_neg hc2, if_neg hc3,
      if_pos (Or.inr (Or.inr hjson))]
  · intro ct hpfx hnes hntj hnj
    have hc1 : charsIsPrefix "application/".toList ct = false := appPfx_false_of_textPfx hpfx
    have hc2 : ct ≠ "application/x-www-form-urlencoded".toList := by
      intro he; rw [he] at hpfx; exact absurd hpfx (by decide)
    have hc4 : ¬(ct = "application/json".toList ∨ ct = "text/json".toList ∨
        charsContains "+json".toList ct = true) := by
      rintro (he | he | he)
      · rw [he] at hpfx; exact absurd hpfx (by decide)
      · exact hntj he
      · rw [hnj] at he; exact Bool.false_ne_true he
    have hc5 : ct ≠ "application/javascript".toList := by
      intro he; rw [he] at hpfx; exact absurd hpfx (by decide)
    unfold getContentTypeDefinitionList
    rw [if_neg (bne_true_of_eq_false (by rw [hc1]; exact Bool.false_and _)), if_neg hc2, if_neg hnes, if_neg hc4, if_neg hc5,
      if_pos hpfx]
  · intro ct hpfx hnsvg hnj
    have hc1 : charsIsPrefix "application/".toList ct = false := appPfx_false_of_imagePfx hpfx
    have hct : charsIsPrefix "text/".toList ct = false := textPfx_false_of_imagePfx hpfx
    have hc2 : ct ≠ "application/x-www-form-urlencoded".toList := by
      intro he; rw [he] at hpfx; exact absurd hpfx (by decide)
    have hc3 : ct ≠ "text/event-stream".toList := by
      intro he; rw [he] at hpfx; exact absurd hpfx (by decide)
    have hc4 : ¬(ct = "application/json".toList ∨ ct = "text/json".toList ∨
        charsContains "+json".toList ct = true) := by
      rintro (he | he | he)
      · rw [he] at hpfx; exact absurd hpfx (by decide)
      · rw [he] at hpfx; exact absurd hpfx (by decide)
      · rw [hnj] at he; exact Bool.false_ne_true he
    have hc5 : ct ≠ "application/javascript".toList := by
      intro he; rw [he] at hpfx; exact absurd hpfx (by decide)
    unfold getContentTypeDefinitionList
    rw [if_neg (bne_true_of_eq_false (by rw [hc1]; exact Bool.false_and _)), if_neg hc2, if_neg hc3, if_neg hc4, if_neg hc5,
      if_neg (bne_true_of_eq_false hct), if_neg hnsvg, if_pos hpfx]
  · intro ct hxml hform hes haj htj hpj hjs htext hsvg himg
    have hc4 : ¬(ct = "application/json".toList ∨ ct = "text/json".toList ∨
        charsContains "+json".toList ct = true) := by
      rintro (he | he | he)
      · exact haj he
      · exact htj he
      · rw [hpj] at he; exact Bool.false_ne_true he
    unfold getContentTypeDefinitionList
    rw [if_neg (bne_true_of_eq_false hxml), if_neg hform, if_neg hes, if_neg hc4,
      if_neg hjs, if_neg (bne_true_of_eq_false htext), if_neg hsvg,
      if_neg (bne_true_of_eq_false himg)]
    split
    · rfl
    · split
      · rfl
      · rfl

/-- Witness for C5: the universal table rules applied at concrete content
types. -/
theorem C5_witness :
    getContentTypeDefinitionList "application/atom+xml".toList = ContentType.Xml ∧
    getContentTypeDefinitionList "application/vnd.api+json".toList = ContentType.Json ∧
    getContentTypeDefinitionList "text/html".toList = ContentType.Text ∧
    getContentTypeDefinitionList "image/png".toList = ContentType.Image ∧
    getContentTypeDefinitionList "video/mp4".toList = ContentType.Binary ∧
    getContentTypeDefinitionList "application/zip".toList = ContentType.Binary := by
  refine ⟨?_, ?_, ?_, ?_, ?_, ?_⟩
  · exact C5_content_type_dispatch.1 "application/atom+xml".toList (by decide) (by decide)
  · exact C5_content_type_dispatch.2.2.2.2.2.1 "application/vnd.api+json".toList
      (by decide) (by decide)
  · exact C5_content_type_dispatch.2.2.2.2.2.2.2.1 "text/html".toList (by decide)
      (by decide) (by decide) (by decide)
  · exact C5_content_type_dispatch.2.2.2.2.2.2.2.2.2.1 "image/png".toList (by decide)
      (by decide) (by decide)
  · exact C5_content_type_dispatch.2.2.2.2.2.2.2.2.2.2.2.2.2.1 "video/mp4".toList
      (by decide) (by decide) (by decide) (by decide) (by decide) (by decide) (by decide)
      (by decide) (by decide) (by decide)
  · exact C5_content_type_dispatch.2.2.2.2.2.2.2.2.2.2.2.2.2.1 "application/zip".toList
      (by decide) (by decide) (by decide) (by decide) (by decide) (by decide) (by decide)
      (by decide) (by decide) (by decide)

/-- A path parameter with value `"1"` under the `addPathParam` defaults. -/
def Fix.idParam : RequestParameter :=
  { key := some "id", value := .vstr "1", explode := false, encode := true,
    style := SerializationStyle.SIMPLE, isLimit := false, isOffset := false, isCursor := false }

/-- C6 counterexample: on a template containing the token `\x7bid\x7d` twice,
the path serializer replaces only the first occurrence — the output keeps the
second token un-replaced, so it is not the full substitution the claim
states. -/
theorem C6_counterexample :
    PathSerializer.serialize "/\x7bid\x7d/\x7bid\x7d" [("id", Fix.idParam)] =
      "/1/\x7bid\x7d" ∧
    PathSerializer.serialize "/\x7bid\x7d/\x7bid\x7d" [("id", Fix.idParam)] ≠ "/1/1" :=
  ⟨rfl, by decide⟩

/-- A request whose path pattern is `/x/\x7bid\x7d`. -/
def Fix.requestC6 : Request :=
  Request.new
    { baseUrl := "https://api", method := HttpMethod.GET, headers := [], queryParams := [],
      pathParams := [], cookies := [], path := "/x/\x7bid\x7d", config := {}, responses := [],
      errors := [], requestSchema := 0, requestContentType := ContentType.Json }

/-- C6 (amended): the path serializer processes the parameter map in order,
one `jsReplaceFirst` step per parameter (conjuncts 2 and 3 characterize
`PathSerializer.serialize` on every map); each step replaces exactly the
first occurrence of the `\x7bname\x7d` token of that parameter with its
serialized value — witnessed by a minimal-prefix decomposition
— while a duplicate occurrence of the same token is left as-is; a parameter
whose token does not occur leaves the path unchanged (ignored); and a
parameter whose value is `undefined` is skipped at `addPathParam` time, so it
never reaches the serializer, its path token stays un-replaced, and no
`undefined` text is emitted into the path. -/
theorem C6_amended_path_serializer :
    (∀ (r : Request) (key : String) (param : ParamInput), param.value = .undefined →
      r.addPathParam key param = r) ∧
    (∀ pattern : String, PathSerializer.serialize pattern [] = pattern) ∧
    (∀ (pattern : String) (e : String × RequestParameter) (m : PMap),
      PathSerializer.serialize pattern (e :: m) =
        PathSerializer.serialize
          (jsReplaceFirst pattern ("\x7b" ++ keyTemplate e.2.key ++ "\x7d")
            (Serializer.serializeValue e.2)) m) ∧
    (∀ (pattern : String) (p : RequestParameter),
      charsContains ("\x7b" ++ keyTemplate p.key ++ "\x7d").toList pattern.toList = false →
      jsReplaceFirst pattern ("\x7b" ++ keyTemplate p.key ++ "\x7d")
        (Serializer.serializeValue p) = pattern) ∧
    (∀ (pattern : String) (p : RequestParameter),
      charsContains ("\x7b" ++ keyTemplate p.key ++ "\x7d").toList pattern.toList = true →
      ∃ a b : List Char,
        pattern.toList = a ++ ("\x7b" ++ keyTemplate p.key ++ "\x7d").toList ++ b ∧
        (jsReplaceFirst pattern ("\x7b" ++ keyTemplate p.key ++ "\x7d")
            (Serializer.serializeValue p)).toList =
          a ++ (Serializer.serializeValue p).toList ++ b ∧
        ∀ a2 b2 : List Char,
          pattern.toList = a2 ++ ("\x7b" ++ keyTemplate p.key ++ "\x7d").toList ++ b2 →
          a.length ≤ a2.length) ∧
    PathSerializer.serialize "/users/\x7bid\x7d/posts/\x7bpostId\x7d"
        [("id", { Fix.idParam with value := .vstr "7" }),
         ("postId", { Fix.idParam with key := some "postId", value := .vstr "9" })] =
      "/users/7/posts/9" ∧
    (Fix.requestC6.addPathParam "id" { key := some "id", value := .undefined }).constructPath =
      "/x/\x7bid\x7d" := by
  refine ⟨?_, fun _ => rfl, fun _ _ _ => rfl, ?_, ?_, rfl, rfl⟩
  · intro r key param h
    unfold Request.addPathParam
    rw [h]
  · intro pattern p h
    unfold jsReplaceFirst
    rw [charsReplaceFirst_of_not_contains _ _ _ h]
    rfl
  · intro pattern p h
    obtain ⟨a, b, h1, h2, h3⟩ :=
      charsReplaceFirst_first_occurrence pattern.toList
        ("\x7b" ++ keyTemplate p.key ++ "\x7d").toList
        (Serializer.serializeValue p).toList h
    exact ⟨a, b, h1, h2, h3⟩

/-- Witness for the amended C6: the skip rule, the no-matching-token rule and
the first-occurrence decomposition applied at concrete inputs. -/
theorem C6_witness :
    Fix.requestC6.addPathParam "id" { key := some "id", value := Value.undefined } =
      Fix.requestC6 ∧
    jsReplaceFirst "/plain/path" ("\x7b" ++ keyTemplate Fix.idParam.key ++ "\x7d")
        (Serializer.serializeValue Fix.idParam) = "/plain/path" ∧
    (∃ a b : List Char,
      ("/users/\x7bid\x7d".toList : List Char) =
        a ++ ("\x7b" ++ keyTemplate Fix.idParam.key ++ "\x7d").toList ++ b ∧
      (jsReplaceFirst "/users/\x7bid\x7d" ("\x7b" ++ keyTemplate Fix.idParam.key ++ "\x7d")
          (Serializer.serializeValue Fix.idParam)).toList =
        a ++ (Serializer.serializeValue Fix.idParam).toList ++ b ∧
      ∀ a2 b2 : List Char,
        "/users/\x7bid\x7d".toList =
          a2 ++ ("\x7b" ++ keyTemplate Fix.idParam.key ++ "\x7d").toList ++ b2 →
        a.length ≤ a2.length) :=
  ⟨C6_amended_path_serializer.1 Fix.requestC6 "id"
      { key := some "id", value := Value.undefined } rfl,
    C6_amended_path_serializer.2.2.2.1 "/plain/path" Fix.idParam (by decide),
    C6_amended_path_serializer.2.2.2.2.1 "/users/\x7bid\x7d" Fix.idParam (by decide)⟩

theorem find?_append_of_some {α : Type} (l1 l2 : List α) (p : α → Bool) (x : α)
    (h : l1.find? p = some x) : (l1 ++ l2).find? p = some x := by
  induction l1 with
  | nil => simp [List.find?] at h
  | cons a l ih =>
    cases hpa : p a with
    | true =>
      simp only [List.find?_cons, hpa, cond_true] at h
      simp only [List.cons_append, List.find?_cons, hpa, cond_true]
      exact h
    | false =>
      simp only [List.find?_cons, hpa, cond_false] at h
      simp only [List.cons_append, List.find?_cons, hpa, cond_false]
      exact ih h

theorem getOffsetParam_located (r : Request) (pre post : PMap) (k : String)
    (p : RequestParameter) (hH : ∀ e ∈ r.headers, e.2.isOffset = false)
    (hQ : r.queryParams = pre ++ (k, p) :: post) (hPre : ∀ e ∈ pre, e.2.isOffset = false)
    (hOff : p.isOffset = true) : r.getOffsetParam = some p := by
  unfold Request.getOffsetParam Request.getAllParams
  rw [hQ]
  have h1 : (r.headers.map (fun e => e.2)).find? (fun q => q.isOffset) = none :=
    map_find?_none _ _ hH
  have h2 : (((pre ++ (k, p) :: post)).map (fun e => e.2)).find? (fun q => q.isOffset) =
      some p := by
    rw [List.map_append, List.map_cons]
    rw [find?_append_of_none _ _ _ (map_find?_none _ _ hPre)]
    simp [List.find?_cons, hOff]
  have h12 : ((r.headers.map (fun e => e.2)) ++
      ((pre ++ (k, p) :: post)).map (fun e => e.2)).find? (fun q => q.isOffset) = some p := by
    rw [find?_append_of_none _ _ _ h1]
    exact h2
  exact find?_append_of_some _ _ _ _ (find?_append_of_some _ _ _ _ h12)

theorem nextPage_offset_reduces (r : Request) (pag : RequestPagination)
    (p : RequestParameter) (hpag : r.pagination = some (.offset pag))
    (hfind : r.getOffsetParam = some p) :
    r.nextPage none =
      (match pag.pageSize with
        | none => Except.error "pageSize is required for limit-offset pagination"
        | some ps =>
          Except.ok (r.updateFirstParam (fun q => q.isOffset)
            (fun q => { q with value := advanceOffsetValue q.value ps }))) := by
  unfold Request.nextPage
  rw [hpag, hfind]

theorem updateFirstParam_query (r : Request) (pre post : PMap) (k : String)
    (p : RequestParameter) (f : RequestParameter → RequestParameter)
    (hH : ∀ e ∈ r.headers, e.2.isOffset = false)
    (hQ : r.queryParams = pre ++ (k, p) :: post) (hPre : ∀ e ∈ pre, e.2.isOffset = false)
    (hOff : p.isOffset = true) :
    r.updateFirstParam (fun q => q.isOffset) f =
      { r with queryParams := pre ++ (k, f p) :: post } := by
  unfold Request.updateFirstParam
  rw [PMap.updateFirst_none _ _ _ (fun e he => hH e he)]
  rw [hQ, PMap.updateFirst_found _ _ _ _ _ hOff _ (fun e he => hPre e he)]

/-- The offset query parameter at value `0`. -/
def Fix.offsetParam : RequestParameter :=
  { key := some "offset", value := .vnum (JsNum.ofInt 0), explode := true, encode := true,
    style := SerializationStyle.FORM, isLimit := false, isOffset := true, isCursor := false }

/-- An offset-paginated request with `pageSize = 20` and offset `0`. -/
def Fix.requestC7 : Request :=
  { Fix.getRequest with
    queryParams := [("offset", Fix.offsetParam)]
    pagination := some (.offset ⟨some (JsNum.ofInt 20), ["items"], none⟩) }

/-- C7: on a request with limit-offset pagination whose flagged `isOffset`
parameter holds a numeric value, `nextPage()` with a configured `pageSize`
increments exactly that parameter by `pageSize` and changes nothing else on
the request; with no configured `pageSize` it raises instead of silently
leaving the offset unchanged.  Concretely, from offset `0` with
`pageSize=20`, one call yields `20` and a second call yields `40`. -/
theorem C7_offset_pagination_advance :
    (∀ (r : Request) (pag : RequestPagination) (ps : JsNum) (pre post : PMap)
        (k : String) (p : RequestParameter) (n : JsNum),
      r.pagination = some (.offset pag) → pag.pageSize = some ps →
      (∀ e ∈ r.headers, e.2.isOffset = false) →
      r.queryParams = pre ++ (k, p) :: post →
      (∀ e ∈ pre, e.2.isOffset = false) →
      p.isOffset = true → p.value = .vnum n →
      r.nextPage none =
        .ok { r with queryParams := pre ++ (k, { p with value := .vnum (n.add ps) }) :: post }) ∧
    (∀ (r : Request) (pag : RequestPagination) (pre post : PMap) (k : String)
        (p : RequestParameter),
      r.pagination = some (.offset pag) → pag.pageSize = none →
      (∀ e ∈ r.headers, e.2.isOffset = false) →
      r.queryParams = pre ++ (k, p) :: post →
      (∀ e ∈ pre, e.2.isOffset = false) →
      p.isOffset = true →
      r.nextPage none = .error "pageSize is required for limit-offset pagination") ∧
    (Fix.requestC7.nextPage none).map
        (fun r => (PMap.get r.queryParams "offset").map (fun p => p.value)) =
      .ok (some (.vnum (JsNum.mk 20 1))) ∧
    ((Fix.requestC7.nextPage none).bind (fun r => r.nextPage none)).map
        (fun r => (PMap.get r.queryParams "offset").map (fun p => p.value)) =
      .ok (some (.vnum (JsNum.mk 40 1))) := by
  refine ⟨?_, ?_, rfl, rfl⟩
  · intro r pag ps pre post k p n hpag hps hH hQ hPre hOff hVal
    rw [nextPage_offset_reduces r pag p hpag (getOffsetParam_located r pre post k p hH hQ hPre hOff)]
    rw [hps]
    show Except.ok (r.updateFirstParam (fun q => q.isOffset)
      (fun q => { q with value := advanceOffsetValue q.value ps })) = _
    rw [updateFirstParam_query r pre post k p
      (fun q => { q with value := advanceOffsetValue q.value ps }) hH hQ hPre hOff]
    rw [hVal]
    rfl
  · intro r pag pre post k p hpag hps hH hQ hPre hOff
    rw [nextPage_offset_reduces r pag p hpag (getOffsetParam_located r pre post k p hH hQ hPre hOff)]
    rw [hps]

/-- Witness for C7: the universal advance rule applied to the concrete
request with offset `0` and `pageSize = 20`. -/
theorem C7_witness :
    Fix.requestC7.nextPage none =
      .ok { Fix.requestC7 with
            queryParams := [("offset",
              { Fix.offsetParam with
                value := .vnum ((JsNum.ofInt 0).add (JsNum.ofInt 20)) })] } :=
  C7_offset_pagination_advance.1 Fix.requestC7 ⟨some (JsNum.ofInt 20), ["items"], none⟩
    (JsNum.ofInt 20) [] [] "offset" Fix.offsetParam (JsNum.ofInt 0) (by rfl) (by rfl)
    (by intro e he; cases he) (by rfl) (by intro e he; cases he) (by rfl) (by rfl)

theorem getNextCursor_cursor (r : Request) (pag : RequestCursorPagination)
    (data : Value) (hpag : r.pagination = some (.cursor pag)) :
    HttpClient.getNextCursor r data =
      (match cursorWalk data pag.cursorPath with
        | none => Except.ok Value.vnull
        | some curr =>
          match pag.cursorSchema with
          | none => Except.ok Value.vnull
          | some parse =>
            (parse curr).map (fun v =>
              match v with
              | .vnull => Value.vnull
              | .undefined => Value.vnull
              | w => w)) := by
  unfold HttpClient.getNextCursor
  rw [hpag]

theorem getNextCursor_full_walk (r : Request) (pag : RequestCursorPagination)
    (data final : Value) (parse : SchemaFn) (hpag : r.pagination = some (.cursor pag))
    (hschema : pag.cursorSchema = some parse)
    (hwalk : cursorWalk data pag.cursorPath = some final) :
    HttpClient.getNextCursor r data =
      (parse final).map (fun v =>
        match v with
        | .vnull => Value.vnull
        | .undefined => Value.vnull
        | w => w) := by
  rw [getNextCursor_cursor r pag data hpag, hwalk]
  show ((match pag.cursorSchema with
    | none => Except.ok Value.vnull
    | some parse =>
      (parse final).map (fun v =>
        match v with
        | Value.vnull => Value.vnull
        | Value.undefined => Value.vnull
        | w => w) : Except String Value)) = _
  rw [hschema]

/-- A cursor pagination whose schema raises on any input. -/
def Fix.cursorPagination : RequestCursorPagination :=
  ⟨[], none, ["meta", "next"], some (fun _ => .error "schema rejected value")⟩

/-- A cursor-paginated request. -/
def Fix.requestC8 : Request :=
  { Fix.getRequest with pagination := some (.cursor Fix.cursorPagination) }

/-- C8: walking the cursor path of a cursor-paginated request returns `null`
(never raises, regardless of the cursor schema) as soon as an intermediate
value is `null`/`undefined`; only a fully-walked value is handed to
`cursorSchema` parsing, whose `null`/`undefined` output — or an absent
schema — is coalesced to `null`. -/
theorem C8_cursor_termination :
    (∀ (r : Request) (pag : RequestCursorPagination) (data : Value),
      r.pagination = some (.cursor pag) →
      cursorWalk data pag.cursorPath = none →
      HttpClient.getNextCursor r data = .ok .vnull) ∧
    (∀ (r : Request) (pag : RequestCursorPagination) (data final : Value) (parse : SchemaFn),
      r.pagination = some (.cursor pag) →
      pag.cursorSchema = some parse →
      cursorWalk data pag.cursorPath = some final →
      HttpClient.getNextCursor r data =
        (parse final).map (fun v =>
          match v with
          | .vnull => Value.vnull
          | .undefined => Value.vnull
          | w => w)) ∧
    (∀ (r : Request) (pag : RequestCursorPagination) (data final : Value) (parse : SchemaFn),
      r.pagination = some (.cursor pag) →
      pag.cursorSchema = some parse →
      cursorWalk data pag.cursorPath = some final →
      parse final = .ok .vnull →
      HttpClient.getNextCursor r data = .ok .vnull) ∧
    (∀ (r : Request) (pag : RequestCursorPagination) (data : Value),
      r.pagination = some (.cursor pag) →
      pag.cursorSchema = none →
      HttpClient.getNextCursor r data = .ok .vnull) := by
  refine ⟨?_, ?_, ?_, ?_⟩
  · intro r pag data hpag hwalk
    rw [getNextCursor_cursor r pag data hpag, hwalk]
  · intro r pag data final parse hpag hschema hwalk
    exact getNextCursor_full_walk r pag data final parse hpag hschema hwalk
  · intro r pag data final parse hpag hschema hwalk hparse
    rw [getNextCursor_full_walk r pag data final parse hpag hschema hwalk, hparse]
    rfl
  · intro r pag data hpag hschema
    rw [getNextCursor_cursor r pag data hpag]
    cases hwalk : cursorWalk data pag.cursorPath with
    | none => rfl
    | some final =>
      show ((match pag.cursorSchema with
        | none => Except.ok Value.vnull
        | some parse =>
          (parse final).map (fun v =>
            match v with
            | Value.vnull => Value.vnull
            | Value.undefined => Value.vnull
            | w => w) : Except String Value)) = _
      rw [hschema]

/-- Witness for C8: a cursor path hitting `null` one step in returns `null`
even though the configured cursor schema rejects every value. -/
theorem C8_witness :
    HttpClient.getNextCursor Fix.requestC8 (.vobj (.cons "meta" .vnull .nil)) = .ok .vnull :=
  C8_cursor_termination.1 Fix.requestC8 Fix.cursorPagination
    (.vobj (.cons "meta" .vnull .nil)) (by rfl) (by rfl)

/-- The construction parameters of the path-template scenario. -/
def Fix.paramsC9 : CreateRequestParameters :=
  { baseUrl := "https://api", method := HttpMethod.GET, headers := [], queryParams := [],
    pathParams := [("id", { Fix.idParam with value := .vstr "7" })], cookies := [],
    path := "/users/\x7bid\x7d", config := {}, responses := [], errors := [],
    requestSchema := 0, requestContentType := ContentType.Json }

/-- The request constructed from those parameters. -/
def Fix.requestC9 : Request := Request.new Fix.paramsC9

/-- C9: a freshly constructed `Request` — including one produced by
`RequestBuilder.build` (which just calls the constructor) or by
`Request.copy` — has its public `path` field equal to the raw path pattern
with no `\x7bname\x7d` token substituted, because the constructor serializes
the path against the still-empty parameter map; substitution happens only
when `constructFullUrl` re-derives the path, so a consumer reading
`request.path` observes the unresolved template. -/
theorem C9_path_field_unresolved :
    (∀ params : CreateRequestParameters, (Request.new params).path = params.path) ∧
    (∀ (r : Request) (o : CopyOverrides), (r.copy o).path = o.path.getD r.path) ∧
    Fix.requestC9.path = "/users/\x7bid\x7d" ∧
    Fix.requestC9.constructFullUrl = "https://api/users/7" :=
  ⟨fun _ => rfl, fun _ _ => rfl, rfl, rfl⟩

/-- Witness for C9 at the concrete construction parameters. -/
theorem C9_witness : (Request.new Fix.paramsC9).path = Fix.paramsC9.path :=
  C9_path_field_unresolved.1 Fix.paramsC9

/-- A 204 response with no decoded data. -/
def Fix.response204 : HttpResponse := { data := .undefined, metadata := ⟨204, "No Content", []⟩ }

/-- C10: the paginated call wrappers raise
`no response data to paginate through` whenever the decoded `data` of the
underlying response is unset or falsy, and return a page only when decoded
data is present. -/
theorem C10_paginated_requires_data (r : Request) (response : HttpResponse) :
    (jsFalsy response.data = true →
      HttpClient.callPaginated r response = .error "no response data to paginate through" ∧
      HttpClient.callCursorPaginated r response =
        .error "no response data to paginate through") ∧
    (∀ out, HttpClient.callPaginated r response = .ok out → jsFalsy response.data = false) ∧
    (∀ out, HttpClient.callCursorPaginated r response = .ok out →
      jsFalsy response.data = false) := by
  refine ⟨?_, ?_, ?_⟩
  · intro h
    constructor
    · unfold HttpClient.callPaginated
      rw [if_pos h]
    · unfold HttpClient.callCursorPaginated
      rw [if_pos h]
  · intro out hok
    cases hjs : jsFalsy response.data with
    | false => rfl
    | true =>
      unfold HttpClient.callPaginated at hok
      rw [if_pos hjs] at hok
      exact Except.noConfusion hok
  · intro out hok
    cases hjs : jsFalsy response.data with
    | false => rfl
    | true =>
      unfold HttpClient.callCursorPaginated at hok
      rw [if_pos hjs] at hok
      exact Except.noConfusion hok

/-- Witness for C10: a 204 response with unset data makes the paginated call
raise. -/
theorem C10_witness :
    HttpClient.callPaginated Fix.requestC7 Fix.response204 =
      .error "no response data to paginate through" :=
  ((C10_paginated_requires_data Fix.requestC7 Fix.response204).1 (by rfl)).1
